import Mathlib

/-!
# isochron: scheduler of `isochron/send.c` and time utilities of `src/common.c`

A shallow embedding of the sender's schedule arithmetic, its cyclic
transmission loop and the timestamp channel it reads.

Conventions of the embedding:

* `__s64`, `long` and `int` quantities are integers (`Int`).  Signed overflow
  is undefined in C and lies outside the model; the one place where the source
  relies on a fixed width, the 16-bit sequence id written by `htons`, is
  reduced modulo `65536` explicitly.  C integer division truncates toward
  zero and is `Int.tdiv`; a division by zero traps and is `none`.
* The operating system is a record of oracles (`World`): the return value of
  the k-th `clock_nanosleep`, of the k-th `sendto`, what the k-th `sk_receive`
  call observes, and the one-shot results of the set-up calls of `prog_init`.
  The calls made are recorded in the state, so that a run can be inspected.
* The log buffer `log_buf` of `LOGBUF_SIZ` bytes is kept as the lines that
  `rtprintf` stored whole, each as the values formatted into it, together
  with the write position `log_buf_len`, whether the buffer was allocated, a
  line that was cut off at the end of the buffer, and a flag recording that a
  write went outside the buffer.  What such a stray write destroys is outside
  the model: the run goes on with the program data it had.
* The port resolver of `src/common.c` runs against a second record of oracles
  (`Ptp4l`): the daemon's replies, the name resolutions and the allocator.
  Interface names are strings, and a call returns a record of what it did.
-/

namespace Isochron

/-! ## Constants taken from the system headers -/

def NSEC_PER_SEC : Int := 1000000000
def EINTR : Int := 4
def EAGAIN : Int := 11
def ENOMEM : Int := 12
def EINVAL : Int := 22

/-! ## Time utilities (`src/common.c`) -/

/-- The two-field `struct timespec`. -/
structure timespec where
  tv_sec : Int
  tv_nsec : Int
deriving DecidableEq

/-- Source function `timespec_to_ns`: `tv_sec * NSEC_PER_SEC + tv_nsec`. -/
def timespec_to_ns (ts : timespec) : Int :=
  ts.tv_sec * NSEC_PER_SEC + ts.tv_nsec

/-- Source function `ns_to_timespec`: truncating quotient, and remainder of the absolute value. -/
def ns_to_timespec (ns : Int) : timespec :=
  { tv_sec := ns.tdiv NSEC_PER_SEC
    tv_nsec := (ns.natAbs : Int).tmod NSEC_PER_SEC }

/-- Source function `ns_sprintf` prints the two fields of `ns_to_timespec ns`
as seconds, a dot and nine digits of nanoseconds; the text is determined by
that pair, which stands for it here, and `timespec.text` is the text.  The
buffer size `TIMESPEC_BUFSIZ` is defined outside the sources at hand and is
taken to hold the text of any 64-bit count, which has at most 21
characters. -/
def ns_sprintf (ns : Int) : timespec :=
  ns_to_timespec ns

/-! ## Winding the base time forward (`isochron/send.c`) -/

/-- Source function `future_base_time`: `base_time` itself when it is not before `now`,
otherwise `base_time + (n + 1) * cycle_time` with
`n = (now - base_time) / cycle_time`.  The division traps on a zero
`cycle_time`. -/
def future_base_time (base_time cycle_time now : Int) : Option Int :=
  if base_time ≥ now then some base_time
  else if cycle_time = 0 then none
  else
    let n := (now - base_time).tdiv cycle_time
    some (base_time + (n + 1) * cycle_time)

/-! ## Frame, timestamp record and log -/

def MSG_ERRQUEUE : Int := 0x2000
def POLLPRI : Nat := 2
def SOL_IP : Int := 0
def SOL_SOCKET : Int := 1
def SOL_IPV6 : Int := 41
def SOL_PACKET : Int := 263
def SCM_TIMESTAMPING : Int := 37
def PACKET_TX_TIMESTAMP : Int := 16
def IP_RECVERR : Int := 11
def IPV6_RECVERR : Int := 25
def SO_EE_ORIGIN_TIMESTAMPING : Nat := 4
def SO_EE_ORIGIN_TXTIME : Nat := 6
def SO_EE_CODE_TXTIME_INVALID_PARAM : Nat := 1
def SO_EE_CODE_TXTIME_MISSED : Nat := 2
/-- The value of `sizeof(struct timespec)` on a 64-bit target. -/
def SIZEOF_TIMESPEC : Nat := 16

/-- The two fields of `struct app_header` that follow the VLAN header of a
frame, in host byte order. -/
structure app_header where
  tx_time : Int
  seqid : Int
deriving DecidableEq

/-- Source function `htons` keeps the low 16 bits of its argument; `ntohs (htons x)` is that
value again. -/
def htons (x : Int) : Int := x % 65536

/-- The record `sk_receive` fills (`struct timestamp`). -/
structure timestamp where
  hw : timespec
  sw : timespec
  txtime : timespec
  tskey : Nat
  tstype : Nat
deriving DecidableEq

/-- The zero-initialised record `tstamp` of `do_work`. -/
def timestamp.zero : timestamp :=
  { hw := ⟨0, 0⟩, sw := ⟨0, 0⟩, txtime := ⟨0, 0⟩, tskey := 0, tstype := 0 }

/-- One line handed to `rtprintf`, as the values formatted into it: the
scheduled time and sequence id, followed in a `txtstamp` line by the hardware
and the software timestamp. -/
inductive log_line where
  | no_tstamp (scheduled : timespec) (seqid : Int)
  | txtstamp (scheduled : timespec) (seqid : Int) (hwts : timespec) (swts : timespec)
deriving DecidableEq

/-- The text that `%ld` and `%d` print for an integer. -/
def fmt_d (v : Int) : String := toString v

/-- The text that `%09ld` prints: at least nine characters, padded with zeros
on the left, after the sign if there is one. -/
def fmt_09ld (v : Int) : String :=
  if v < 0 then
    "-" ++ String.mk (List.replicate (8 - (toString v.natAbs).length) '0') ++ toString v.natAbs
  else String.mk (List.replicate (9 - (toString v.toNat).length) '0') ++ toString v.toNat

/-- The text `ns_sprintf` leaves in its buffer for the pair it prints. -/
def timespec.text (ts : timespec) : String :=
  fmt_d ts.tv_sec ++ "." ++ fmt_09ld ts.tv_nsec

/-- The text of a log line, as the two format strings of `print_no_tstamp`
and `process_txtstamp` produce it. -/
def log_line.text : log_line → String
  | .no_tstamp sched seqid => "[" ++ sched.text ++ "] seqid " ++ fmt_d seqid ++ "\n"
  | .txtstamp sched seqid hw sw =>
    "[" ++ sched.text ++ "] seqid " ++ fmt_d seqid ++ " txtstamp " ++ hw.text ++ " swts " ++
      sw.text ++ "\n"

/-- The size of the log buffer, 10 MiB. -/
def LOGBUF_SIZ : Int := 10 * 1024 * 1024

/-- The bytes a line takes in the log buffer: its characters and the
terminating zero byte. -/
def log_line.size (l : log_line) : Int :=
  (l.text.length : Nat) + 1

/-- What `prog_init` does to the process, in order. -/
inductive os_event where
  | socket_open
  | socket_close
  | log_buf_alloc
  | mlockall
  | timestamping_armed
deriving DecidableEq

/-- The fields of `struct prog_data` that the scheduler reads or writes.
`sendbuf` is the application header inside the frame template.  The log
buffer is four fields besides `log_buf_len`: `log_buf_allocated` tells whether
`log_buf` points to its `LOGBUF_SIZ` bytes or is null, `log_buf` lists the
lines stored whole in them with their terminating zero byte, `log_trunc` is a
line of which only the given number of characters fitted, with its terminator
past the end, and `log_overrun` tells whether `rtprintf` has written outside
the buffer. -/
structure prog_data where
  timestamped : Int
  iterations : Int
  advance_time : Int
  shift_time : Int
  cycle_time : Int
  base_time : Int
  do_ts : Bool
  log_buf : List log_line
  sendbuf : app_header
  log_buf_len : Int
  log_buf_allocated : Bool
  log_trunc : Option (log_line × Int)
  log_overrun : Bool
deriving DecidableEq

/-- The zero-initialised `struct prog_data prog` of `isochron_send_main`. -/
def prog_data.zero : prog_data :=
  { timestamped := 0, iterations := 0, advance_time := 0, shift_time := 0,
    cycle_time := 0, base_time := 0, do_ts := false, log_buf := [],
    sendbuf := ⟨0, 0⟩, log_buf_len := 0, log_buf_allocated := false,
    log_trunc := none, log_overrun := false }

/-- The system calls made so far: the wake instants passed to
`clock_nanosleep`, the frames passed to `sendto`, the number of `sk_receive`
calls, and the set-up events of `prog_init`. -/
structure os_trace where
  sleeps : List timespec
  sent : List app_header
  recvs : Nat
  events : List os_event
deriving DecidableEq

def os_trace.empty : os_trace :=
  { sleeps := [], sent := [], recvs := 0, events := [] }

/-- Program data together with the record of its system calls. -/
structure State where
  prog : prog_data
  os : os_trace
deriving DecidableEq

/-! ## The timestamp channel (`sk_receive`, `src/common.c`) -/

structure scm_timestamping where
  ts0 : timespec
  ts1 : timespec
  ts2 : timespec
deriving DecidableEq

structure sock_extended_err where
  ee_errno : Nat
  ee_origin : Nat
  ee_code : Nat
  ee_info : Nat
  ee_data : Nat
deriving DecidableEq

/-- One control message.  `CMSG_DATA` is cast to either of two records in the
source; `tss` and `sock_err` are those two readings of the payload. -/
structure cmsghdr where
  cmsg_len : Nat
  cmsg_level : Int
  cmsg_type : Int
  tss : scm_timestamping
  sock_err : sock_extended_err
deriving DecidableEq

/-- What one `sk_receive` call observes: the return value of `poll` and the
`revents` it sets, the return value of `recvmsg`, the application header
found in the buffer once `recvmsg` has returned, and the control messages the
loop walks. -/
structure recv_event where
  poll_rc : Int
  revents : Nat
  len : Int
  buf : app_header
  control : List cmsghdr
deriving DecidableEq

/-- Conversion of a `__u64` to the `__s64` parameter of `ns_to_timespec`. -/
def u64_to_s64 (x : Nat) : Int :=
  if x % 2 ^ 64 < 2 ^ 63 then ((x % 2 ^ 64 : Nat) : Int) else ((x % 2 ^ 64 : Nat) : Int) - 2 ^ 64

/-- The body of the control-message loop of `sk_receive`: `some rc` is an
early `return rc`, `none` goes on to the next message. -/
def sk_receive_cmsg (cm : cmsghdr) (tstamp : timestamp) : Option Int × timestamp :=
  if cm.cmsg_level = SOL_SOCKET ∧ cm.cmsg_type = SCM_TIMESTAMPING then
    if cm.cmsg_len < SIZEOF_TIMESPEC * 3 then (some (-1), tstamp)
    else (none, { tstamp with sw := cm.tss.ts0, hw := cm.tss.ts2 })
  else if (cm.cmsg_level = SOL_PACKET ∧ cm.cmsg_type = PACKET_TX_TIMESTAMP) ∨
      (cm.cmsg_level = SOL_IP ∧ cm.cmsg_type = IP_RECVERR) ∨
      (cm.cmsg_level = SOL_IPV6 ∧ cm.cmsg_type = IPV6_RECVERR) then
    if cm.sock_err.ee_origin = SO_EE_ORIGIN_TIMESTAMPING then
      (none, { tstamp with tskey := cm.sock_err.ee_data, tstype := cm.sock_err.ee_info })
    else if cm.sock_err.ee_origin = SO_EE_ORIGIN_TXTIME then
      let txtime : Nat := (cm.sock_err.ee_data * 2 ^ 32 + cm.sock_err.ee_info) % 2 ^ 64
      let tstamp := { tstamp with txtime := ns_to_timespec (u64_to_s64 txtime) }
      if cm.sock_err.ee_code = SO_EE_CODE_TXTIME_INVALID_PARAM ∨
          cm.sock_err.ee_code = SO_EE_CODE_TXTIME_MISSED then (none, tstamp)
      else (some (-1), tstamp)
    else (none, tstamp)
  else (none, tstamp)

/-- The control-message loop of `sk_receive`. -/
def sk_receive_cmsgs : List cmsghdr → timestamp → Option Int × timestamp
  | [], tstamp => (none, tstamp)
  | cm :: rest, tstamp =>
    match sk_receive_cmsg cm tstamp with
    | (some rc, tstamp) => (some rc, tstamp)
    | (none, tstamp) => sk_receive_cmsgs rest tstamp

/-- The part of `sk_receive` from `recvmsg` on: the buffer now holds what
`recvmsg` left in it, and the result is `len` unless the loop returned early. -/
def sk_receive_recvmsg (ev : recv_event) (tstamp : timestamp) : Int × app_header × timestamp :=
  match sk_receive_cmsgs ev.control tstamp with
  | (some rc, tstamp) => (rc, ev.buf, tstamp)
  | (none, tstamp) => (ev.len, ev.buf, tstamp)

/-- Source function `sk_receive` with a non-null `tstamp`, as both callers in `send.c` pass
it.  Returns the result code, the caller's buffer and the caller's record.
With `flags = MSG_ERRQUEUE` a `poll` that reports no event returns `0`. -/
def sk_receive (ev : recv_event) (buf : app_header) (tstamp : timestamp) (flags : Int) :
    Int × app_header × timestamp :=
  if flags = MSG_ERRQUEUE then
    if ev.poll_rc = 0 then (0, buf, tstamp)
    else if ev.poll_rc < 0 then (ev.poll_rc, buf, tstamp)
    else if ev.revents &&& POLLPRI = 0 then (-1, buf, tstamp)
    else sk_receive_recvmsg ev tstamp
  else sk_receive_recvmsg ev tstamp

/-! ## The operating system as oracles -/

/-- Return values of the system calls of one run.  `err_pkt k` and `tstamp`
are the indeterminate initial contents of the uninitialised locals `err_pkt`
(before the k-th `sk_receive` call) and `tstamp` of `wait_for_txtimestamps`. -/
structure World where
  nanosleep_rc : Nat → Int
  sendto_rc : Nat → Int
  recv : Nat → recv_event
  err_pkt : Nat → app_header
  tstamp : timestamp
  socket_fd : Int
  setsockopt_priority_rc : Int
  ioctl_ifindex_rc : Int
  ioctl_hwaddr_rc : Int
  clock_gettime_rc : Int
  now_ts : timespec
  calloc_ok : Bool
  mlockall_rc : Int
  ioctl_hwtstamp_rc : Int
  errno : Int
  setsockopt_timestamping_rc : Int
  setsockopt_errqueue_rc : Int

/-! ## The scheduler (`isochron/send.c`) -/

/-- Source function `rtprintf`: `vsnprintf` of the line at offset
`log_buf_len + 1` of `log_buf` with the size `LOGBUF_SIZ - log_buf_len`, then
`log_buf_len += rc + 1`, where `rc` is the length of the whole line whether
or not it fitted.  With `size` bytes allowed, `vsnprintf` stores
`min rc (size - 1)` characters and a zero byte, nothing at all when
`size = 0`, and the whole line when the negative `size` has become a huge
`size_t`.  The line is stored whole inside the buffer when `rc + 2 ≤ size`;
with `1 ≤ size < rc + 2` the zero byte lands on `log_buf[LOGBUF_SIZ]`, one
past the end; with `size < 0`, or a null `log_buf`, the whole write is
outside the buffer. -/
def rtprintf (prog : prog_data) (line : log_line) : prog_data :=
  let size : Int := LOGBUF_SIZ - prog.log_buf_len
  let rc : Int := (line.text.length : Nat)
  let next : prog_data := { prog with log_buf_len := prog.log_buf_len + (rc + 1) }
  if !prog.log_buf_allocated then { next with log_overrun := true }
  else if rc + 2 ≤ size then { next with log_buf := prog.log_buf ++ [line] }
  else if size = 0 then next
  else if size < 0 then { next with log_overrun := true }
  else { next with log_trunc := some (line, min rc (size - 1)), log_overrun := true }

/-- Source function `process_txtstamp`: logs the scheduled time and sequence id found in
`buf` with the two timestamps, then increments `timestamped`. -/
def process_txtstamp (prog : prog_data) (buf : app_header) (tstamp : timestamp) : prog_data :=
  let hwts := timespec_to_ns tstamp.hw
  let swts := timespec_to_ns tstamp.sw
  let prog := rtprintf prog
    (log_line.txtstamp (ns_sprintf buf.tx_time) buf.seqid (ns_sprintf hwts) (ns_sprintf swts))
  { prog with timestamped := prog.timestamped + 1 }

/-- Source function `print_no_tstamp`: logs the scheduled time and sequence id found in `buf`. -/
def print_no_tstamp (prog : prog_data) (buf : app_header) : prog_data :=
  rtprintf prog (log_line.no_tstamp (ns_sprintf buf.tx_time) buf.seqid)

/-- Source function `do_work`: stamps the frame, sends it, and either reads the timestamp
channel once with a zero timeout or logs the frame directly. -/
def do_work (w : World) (s : State) (iteration : Int) (scheduled : Int) : Int × State :=
  let sendbuf : app_header := { tx_time := scheduled, seqid := htons iteration }
  let rc := w.sendto_rc s.os.sent.length
  let s : State :=
    { prog := { s.prog with sendbuf := sendbuf }
      os := { s.os with sent := s.os.sent ++ [sendbuf] } }
  if rc < 0 then (rc, s)
  else if s.prog.do_ts then
    let r := sk_receive (w.recv s.os.recvs) (w.err_pkt s.os.recvs) timestamp.zero MSG_ERRQUEUE
    let s : State := { s with os := { s.os with recvs := s.os.recvs + 1 } }
    if r.1 = -EAGAIN then (0, s)
    else if r.1 < 0 then (r.1, s)
    else (0, { s with prog := process_txtstamp s.prog r.2.1 r.2.2 })
  else (0, { s with prog := print_no_tstamp s.prog s.prog.sendbuf })

/-- The locals of `wait_for_txtimestamps` that survive from one pass of its
loop to the next; `ret` is `some rc` once the loop has executed `return rc`. -/
structure drain_state where
  st : State
  err_pkt : app_header
  tstamp : timestamp
  ret : Option Int
deriving DecidableEq

/-- One pass through the body of the `while` loop of `wait_for_txtimestamps`:
a negative result of `sk_receive` is returned, any other result is followed
by `process_txtstamp`. -/
def wait_for_txtimestamps_pass (w : World) (d : drain_state) : drain_state :=
  let r := sk_receive (w.recv d.st.os.recvs) d.err_pkt d.tstamp MSG_ERRQUEUE
  let s : State := { d.st with os := { d.st.os with recvs := d.st.os.recvs + 1 } }
  if r.1 < 0 then { st := s, err_pkt := r.2.1, tstamp := r.2.2, ret := some r.1 }
  else { st := { s with prog := process_txtstamp s.prog r.2.1 r.2.2 },
         err_pkt := r.2.1, tstamp := r.2.2, ret := none }

/-- The first `k` passes of the
`while (prog->timestamped < prog->iterations)` loop (fewer when the loop
returns or ends earlier). -/
def wait_for_txtimestamps_while (w : World) : Nat → drain_state → drain_state
  | 0, d => d
  | k + 1, d =>
    if d.ret = none ∧ d.st.prog.timestamped < d.st.prog.iterations then
      wait_for_txtimestamps_while w k (wait_for_txtimestamps_pass w d)
    else d

/-- The state in which `wait_for_txtimestamps` enters its loop. -/
def wait_for_txtimestamps_entry (w : World) (s : State) : drain_state :=
  { st := s, err_pkt := w.err_pkt s.os.recvs, tstamp := w.tstamp, ret := none }

/-- Source function `wait_for_txtimestamps`: nothing to do when capture is off, otherwise the
drain loop.  Each pass that does not return adds one to `timestamped`, so
`iterations - timestamped` passes end the loop; `none` if they did not. -/
def wait_for_txtimestamps (w : World) (s : State) : Option (Int × State) :=
  if !s.prog.do_ts then some (0, s)
  else
    let d := wait_for_txtimestamps_while w (s.prog.iterations - s.prog.timestamped).toNat
      (wait_for_txtimestamps_entry w s)
    match d.ret with
    | some rc => some (rc, d.st)
    | none => if d.st.prog.timestamped < d.st.prog.iterations then none else some (0, d.st)

/-- The variables of the `for` loop of `run_nanosleep`. -/
structure loop_state where
  st : State
  i : Int
  wakeup : Int
deriving DecidableEq

/-- One pass through the `for` loop of `run_nanosleep`, the `i++` included.
`break` leaves the `switch` and `continue` goes to the `i++`, so every pass
ends in the increment of `i`; only a pass whose sleep returned `0` and whose
`do_work` did not fail advances `wakeup`. -/
def run_nanosleep_pass (w : World) (l : loop_state) : loop_state :=
  let wakeup_ts := ns_to_timespec l.wakeup
  let rc := w.nanosleep_rc l.st.os.sleeps.length
  let s : State := { l.st with os := { l.st.os with sleeps := l.st.os.sleeps ++ [wakeup_ts] } }
  if rc = 0 then
    let scheduled := l.wakeup + s.prog.advance_time
    let r := do_work w s l.i scheduled
    if r.1 < 0 then { st := r.2, i := l.i + 1, wakeup := l.wakeup }
    else { st := r.2, i := l.i + 1, wakeup := l.wakeup + r.2.prog.cycle_time }
  else if rc = EINTR then { st := s, i := l.i + 1, wakeup := l.wakeup }
  else { st := s, i := l.i + 1, wakeup := l.wakeup }

/-- The first `k` passes of the `for (i = 1; i <= prog->iterations; i++)` loop
(fewer when the loop ends earlier). -/
def run_nanosleep_for (w : World) : Nat → loop_state → loop_state
  | 0, l => l
  | k + 1, l =>
    if l.i ≤ l.st.prog.iterations then run_nanosleep_for w k (run_nanosleep_pass w l) else l

/-- The state in which `run_nanosleep` enters its loop: `i = 1` and
`wakeup = prog->base_time`. -/
def run_nanosleep_entry (s : State) : loop_state :=
  { st := s, i := 1, wakeup := s.prog.base_time }

/-- Source function `run_nanosleep`: the `for` loop, then `wait_for_txtimestamps`.  Every
pass increments `i`, so `iterations` passes end the loop; `none` if they did
not. -/
def run_nanosleep (w : World) (s : State) : Option (Int × State) :=
  let l := run_nanosleep_for w s.prog.iterations.toNat (run_nanosleep_entry s)
  if l.i ≤ l.st.prog.iterations then none else wait_for_txtimestamps w l.st

/-! ## Set-up, argument check and entry point (`isochron/send.c`) -/

/-- Source function `hwts_init` (`src/common.c`): `-errno` when the `SIOCSHWTSTAMP` ioctl fails. -/
def hwts_init (w : World) : Int :=
  if w.ioctl_hwtstamp_rc < 0 then -w.errno else 0

/-- Source function `sk_timestamping_init` (`src/common.c`). -/
def sk_timestamping_init (w : World) : Int :=
  let rc := hwts_init w
  if rc ≠ 0 then rc
  else if w.setsockopt_timestamping_rc < 0 then -1
  else if w.setsockopt_errqueue_rc < 0 then w.setsockopt_errqueue_rc
  else 0

/-- Appends a set-up event to the record of system calls. -/
def State.event (s : State) (e : os_event) : State :=
  { s with os := { s.os with events := s.os.events ++ [e] } }

/-- Source function `prog_init`.  The two failed `ioctl` paths return the `rc` left by
`setsockopt`.  `none` is the trap of the division in `future_base_time`. -/
def prog_init (w : World) (s : State) : Option (Int × State) :=
  let s : State := { s with prog := { s.prog with do_ts := !s.prog.do_ts } }
  if w.socket_fd < 0 then some (-EINVAL, s)
  else
    let s := s.event os_event.socket_open
    let rc := w.setsockopt_priority_rc
    if rc < 0 then some (rc, s.event os_event.socket_close)
    else if w.ioctl_ifindex_rc < 0 then some (rc, s.event os_event.socket_close)
    else if w.ioctl_hwaddr_rc < 0 then some (rc, s.event os_event.socket_close)
    else
      let rc := w.clock_gettime_rc
      if rc < 0 then some (rc, s.event os_event.socket_close)
      else
        let now := timespec_to_ns w.now_ts
        let base_time := s.prog.base_time + s.prog.shift_time - s.prog.advance_time
        let now := now + NSEC_PER_SEC
        let wound : Option Int :=
          if base_time < now then future_base_time base_time s.prog.cycle_time now
          else some base_time
        match wound with
        | none => none
        | some base_time =>
          let s : State := { s with prog := { s.prog with base_time := base_time } }
          if !w.calloc_ok then
            some (-ENOMEM, { s with prog := { s.prog with log_buf_allocated := false } })
          else
            let s : State :=
              ({ s with prog := { s.prog with
                  log_buf := [], log_buf_allocated := true, log_trunc := none,
                  log_buf_len := -1 } } : State).event
                os_event.log_buf_alloc
            let rc := w.mlockall_rc
            if rc < 0 then some (rc, s)
            else
              let s := s.event os_event.mlockall
              if s.prog.do_ts then
                let rc := sk_timestamping_init w
                some (rc, if rc = 0 then s.event os_event.timestamping_armed else s)
              else some (0, s)

/-- Source function `prog_parse_args` after the option table: `np_rc` is the return value of
`prog_parse_np_args` and `prog` the program data as that call left it. -/
def prog_parse_args (argc : Int) (np_rc : Int) (prog : prog_data) : Int × prog_data :=
  if np_rc < 0 then (np_rc, prog)
  else if np_rc < argc then (-1, prog)
  else
    let prog : prog_data :=
      if prog.advance_time = 0 then { prog with advance_time := prog.cycle_time } else prog
    if prog.advance_time > prog.cycle_time then (-EINVAL, prog)
    else if prog.shift_time > prog.cycle_time then (-EINVAL, prog)
    else (0, prog)

/-- Source function `isochron_send_main`: `parsed` is the zero-initialised
`prog` as filled in by `prog_parse_np_args`.  `prog_teardown` flushes the log and returns `0`. -/
def isochron_send_main (w : World) (argc : Int) (np_rc : Int) (parsed : prog_data) :
    Option (Int × State) :=
  let r := prog_parse_args argc np_rc parsed
  let s : State := { prog := r.2, os := os_trace.empty }
  if r.1 < 0 then some (r.1, s)
  else
    match prog_init w s with
    | none => none
    | some (rc, s) =>
      if rc < 0 then some (rc, s)
      else run_nanosleep w s

/-! ## Invariants and sample runs -/

/-- The program fields a cycle never writes. -/
def prog_data.same_schedule (p q : prog_data) : Prop :=
  q.iterations = p.iterations ∧ q.advance_time = p.advance_time ∧
  q.shift_time = p.shift_time ∧ q.cycle_time = p.cycle_time ∧
  q.base_time = p.base_time ∧ q.do_ts = p.do_ts

/-- The loop invariant of `run_nanosleep`: `timestamped` counts at most the
passes made so far. -/
def loop_state.inv (l : loop_state) : Prop :=
  0 ≤ l.st.prog.timestamped ∧ l.st.prog.timestamped + 1 ≤ l.i ∧
  l.i ≤ l.st.prog.iterations + 1

/-- The loop invariant of `wait_for_txtimestamps`: `timestamped` stays within
`0 .. iterations`, and only a negative result is ever returned from the loop. -/
def drain_state.inv (d : drain_state) : Prop :=
  0 ≤ d.st.prog.timestamped ∧ d.st.prog.timestamped ≤ d.st.prog.iterations ∧
  ∀ rc, d.ret = some rc → rc < 0

/-- The state after the first `k` passes of the `for` loop of `run_nanosleep`
started on `s`. -/
def run_nanosleep_after (w : World) (s : State) (k : Nat) : State :=
  (run_nanosleep_for w k (run_nanosleep_entry s)).st

/-- The state after the whole `for` loop of `run_nanosleep` started on `s` and
the first `k` passes of the loop of `wait_for_txtimestamps` that follows it. -/
def run_nanosleep_drain_after (w : World) (s : State) (k : Nat) : State :=
  (wait_for_txtimestamps_while w k (wait_for_txtimestamps_entry w
    (run_nanosleep_after w s s.prog.iterations.toNat))).st

/-- A channel read on which `poll` reports no event. -/
def recv_timeout : recv_event :=
  { poll_rc := 0, revents := 0, len := 0, buf := ⟨0, 0⟩, control := [] }

/-- A world in which every call succeeds, no sleep is interrupted and the
timestamp channel never has an event; the clock reads 100 s. -/
def quiet_world : World :=
  { nanosleep_rc := fun _ => 0, sendto_rc := fun _ => 64,
    recv := fun _ => recv_timeout,
    err_pkt := fun _ => ⟨0, 0⟩, tstamp := timestamp.zero,
    socket_fd := 3, setsockopt_priority_rc := 0, ioctl_ifindex_rc := 0, ioctl_hwaddr_rc := 0,
    clock_gettime_rc := 0, now_ts := ⟨100, 0⟩, calloc_ok := true, mlockall_rc := 0,
    ioctl_hwtstamp_rc := 0, errno := 0, setsockopt_timestamping_rc := 0,
    setsockopt_errqueue_rc := 0 }

/-- Three cycles of one second from 7 s, half a second of advance, capture
off, with the empty log buffer that `prog_init` leaves. -/
def three_cycles : State :=
  { prog := { prog_data.zero with
      iterations := 3, cycle_time := 1000000000, advance_time := 500000000,
      base_time := 7000000000, log_buf_allocated := true, log_buf_len := -1 }
    os := os_trace.empty }

/-- The same schedule with 600000 cycles. -/
def many_cycles : State :=
  { three_cycles with prog := { three_cycles.prog with iterations := 600000 } }

/-- The invariant of the log buffer: every line stored whole took at least 21
bytes of it, so their number times 21 is at most the write position plus one
and at most the size of the buffer. -/
def prog_data.log_inv (p : prog_data) : Prop :=
  21 * (p.log_buf.length : Int) ≤ p.log_buf_len + 1 ∧
  21 * (p.log_buf.length : Int) ≤ LOGBUF_SIZ

/-- The same three cycles with timestamp capture on. -/
def three_cycles_ts : State :=
  { three_cycles with prog := { three_cycles.prog with do_ts := true } }

/-- Entry of the drain phase with 3 of 5 timestamps retrieved. -/
def three_of_five : State :=
  { three_cycles with
    prog := { three_cycles.prog with do_ts := true, iterations := 5, timestamped := 3 } }

/-! ## Sample control messages -/

/-- The value of `CMSG_LEN(0)`, the length of the control-message header that
`cmsg_len` includes, on a 64-bit target. -/
def CMSG_HDR_LEN : Nat := 16

/-- A timestamping control block whose `cmsg_len` is 48: the header and 32
bytes of payload, room for two `struct timespec` only.  The fields of `tss`
are what the casts in `sk_receive` read at the three offsets. -/
def short_tstamp_cmsg : cmsghdr :=
  { cmsg_len := 48, cmsg_level := SOL_SOCKET, cmsg_type := SCM_TIMESTAMPING,
    tss := { ts0 := ⟨101, 5⟩, ts1 := ⟨0, 0⟩, ts2 := ⟨7, 9⟩ },
    sock_err := { ee_errno := 0, ee_origin := 0, ee_code := 0, ee_info := 0, ee_data := 0 } }

/-- An error-queue read that delivers a frame of 64 bytes with that block. -/
def short_tstamp_event : recv_event :=
  { poll_rc := 1, revents := POLLPRI, len := 64, buf := ⟨7500000000, 1⟩,
    control := [short_tstamp_cmsg] }

/-! ## The synchronization port resolver (`src/common.c`) -/

def ENODEV : Int := 19

/-- The fields of a `PORT_PROPERTIES_NP` reply that the resolver reads. -/
structure port_properties_np where
  port_state : Nat
  iface : String
deriving DecidableEq

/-- The time-synchronization daemon, the routing socket and the allocator as
oracles.  `resolve k name` is the k-th call of `vlan_resolve_real_dev`, on
`name`: its return value and the name it writes; the call for the target is
number `0` and the call for port `p` is number `p`.  `port_query p` is
`ptpmon_query_port_mid_extra` for port `p`: its return value and the reply.
`strdup_ok j` tells whether the `strdup` that fills `tried_ports[j]`
succeeds. -/
structure Ptp4l where
  resolve : Nat → String → Int × String
  default_ds_rc : Int
  number_ports : Nat
  calloc_ok : Bool
  port_query : Nat → Int × port_properties_np
  strdup_ok : Nat → Bool

/-- The port count `num_ports`: the 16-bit field `number_ports` of the default
data set, in host byte order. -/
def Ptp4l.num_ports (w : Ptp4l) : Nat :=
  w.number_ports % 65536

/-- What one call of `ptpmon_query_port_state_by_name` did: its return value,
the value written to `*port_state` if any, the ports queried in order, the
tried-port list handed to `ptpmon_print_tried_ports` if it was called, and
the tried-port list handed to `ptpmon_free_tried_ports` if it was called. -/
structure resolver_result where
  rc : Int
  port_state : Option Nat
  queried : List Nat
  printed : Option (List String)
  freed : Option (List String)
deriving DecidableEq

/-- The `for (portnum = 1; portnum <= num_ports; portnum++)` loop of
`ptpmon_query_port_state_by_name` over the port numbers still to visit, with
the tried-port list (`tried_ports[0 .. tries-1]`) and the ports queried so
far.  The first three results are the failed query, the failed name
resolution and the failed `strdup`; a mismatch appends the resolved name and
continues; a match writes `*port_state` and leaves the loop.  Every exit frees
the tried-port list; only the exit at the end of the loop prints it. -/
def ptpmon_scan_ports (w : Ptp4l) (real_ifname : String) :
    List Nat → List String → List Nat → resolver_result
  | [], tried, queried =>
    { rc := -ENODEV, port_state := none, queried := queried,
      printed := some tried, freed := some tried }
  | portnum :: rest, tried, queried =>
    let q := w.port_query portnum
    let queried := queried ++ [portnum]
    if q.1 ≠ 0 then
      { rc := q.1, port_state := none, queried := queried, printed := none, freed := some tried }
    else
      let r := w.resolve portnum q.2.iface
      if r.1 ≠ 0 then
        { rc := r.1, port_state := none, queried := queried, printed := none,
          freed := some tried }
      else if r.2 ≠ real_ifname then
        if !w.strdup_ok tried.length then
          { rc := -ENOMEM, port_state := none, queried := queried, printed := none,
            freed := some tried }
        else ptpmon_scan_ports w real_ifname rest (tried ++ [r.2]) queried
      else
        { rc := 0, port_state := some q.2.port_state, queried := queried, printed := none,
          freed := some tried }

/-- Source function `ptpmon_query_port_state_by_name`: resolves the target,
queries the default data set for the 16-bit port count, allocates the
tried-port list and scans ports `1 .. num_ports`. -/
def ptpmon_query_port_state_by_name (w : Ptp4l) (iface : String) : resolver_result :=
  let r := w.resolve 0 iface
  if r.1 ≠ 0 then
    { rc := r.1, port_state := none, queried := [], printed := none, freed := none }
  else if w.default_ds_rc ≠ 0 then
    { rc := w.default_ds_rc, port_state := none, queried := [], printed := none, freed := none }
  else
    let num_ports := w.num_ports
    if !w.calloc_ok then
      { rc := -ENOMEM, port_state := none, queried := [], printed := none, freed := none }
    else ptpmon_scan_ports w r.2 (List.range' 1 num_ports) [] []

/-- The resolved name of port `p`: what `vlan_resolve_real_dev` writes for the
interface name in the reply to the query for port `p`. -/
def Ptp4l.port_name (w : Ptp4l) (p : Nat) : String :=
  (w.resolve p (w.port_query p).2.iface).2

/-- All queries and name resolutions of a scan for `iface` succeed. -/
def Ptp4l.all_succeed (w : Ptp4l) (iface : String) : Prop :=
  (w.resolve 0 iface).1 = 0 ∧ w.default_ds_rc = 0 ∧
  ∀ p, 1 ≤ p → p ≤ w.num_ports →
    (w.port_query p).1 = 0 ∧ (w.resolve p (w.port_query p).2.iface).1 = 0

/-- The allocations of the tried-port list succeed. -/
def Ptp4l.allocs_succeed (w : Ptp4l) : Prop :=
  w.calloc_ok = true ∧ ∀ j, w.strdup_ok j = true

/-- A daemon with three ports bound to `eth1`, `eth2` and `eth3`, in the
states 4, 6 and 9; no interface is a VLAN, so every name resolves to itself. -/
def three_ports : Ptp4l :=
  { resolve := fun _ name => (0, name)
    default_ds_rc := 0
    number_ports := 3
    calloc_ok := true
    port_query := fun p =>
      if p = 1 then (0, ⟨4, "eth1"⟩) else if p = 2 then (0, ⟨6, "eth2"⟩) else (0, ⟨9, "eth3"⟩)
    strdup_ok := fun _ => true }

/-- The same daemon when no `strdup` succeeds. -/
def three_ports_no_memory : Ptp4l :=
  { three_ports with strdup_ok := fun _ => false }

/-! ## Theorems -/

/-- C1: for `cycle > 0`, `future_base_time base cycle now` returns a value
that is at least `now`, differs from `base` by an integer multiple of `cycle`,
and equals `base` whenever `base ≥ now`. -/
theorem future_base_time_ge_and_congruent (base cycle now : Int) (hc : 0 < cycle) :
    ∃ r, future_base_time base cycle now = some r ∧ now ≤ r ∧
      (∃ m : Int, r - base = m * cycle) ∧ (now ≤ base → r = base) := by
  unfold future_base_time
  by_cases hb : base ≥ now
  · exact ⟨base, by simp [hb], hb, ⟨0, by simp⟩, fun _ => rfl⟩
  · have hne : cycle ≠ 0 := ne_of_gt hc
    have hlt : base < now := lt_of_not_ge hb
    refine ⟨base + ((now - base).tdiv cycle + 1) * cycle, by simp [hb, hne], ?_,
      ⟨(now - base).tdiv cycle + 1, by ring⟩, ?_⟩
    · have hnn : 0 ≤ now - base := by omega
      have hdiv : (now - base).tdiv cycle = (now - base) / cycle :=
        Int.tdiv_eq_ediv hnn (le_of_lt hc)
      have hlt2 := Int.lt_ediv_add_one_mul_self (now - base) hc
      rw [hdiv]
      linarith
    · intro h
      exact absurd h (not_le.mpr hlt)

/-- Witness of C1 at `base = 3`, `cycle = 5`, `now = 11`. -/
theorem future_base_time_ge_and_congruent_witness :
    ∃ r, future_base_time 3 5 11 = some r ∧ (11 : Int) ≤ r ∧
      (∃ m : Int, r - 3 = m * 5) ∧ ((11 : Int) ≤ 3 → r = 3) :=
  future_base_time_ge_and_congruent 3 5 11 (by decide)

/-! ### The main loop -/

theorem prog_data.same_schedule_trans {p q r : prog_data}
    (h1 : p.same_schedule q) (h2 : q.same_schedule r) : p.same_schedule r := by
  unfold prog_data.same_schedule at *
  obtain ⟨a1, a2, a3, a4, a5, a6⟩ := h1
  obtain ⟨b1, b2, b3, b4, b5, b6⟩ := h2
  exact ⟨b1.trans a1, b2.trans a2, b3.trans a3, b4.trans a4, b5.trans a5, b6.trans a6⟩

/-- Whatever becomes of the line, `rtprintf` writes only the log fields. -/
theorem rtprintf_same_schedule (p : prog_data) (line : log_line) :
    p.same_schedule (rtprintf p line) := by
  unfold rtprintf prog_data.same_schedule
  dsimp only
  split_ifs <;> simp

theorem rtprintf_timestamped (p : prog_data) (line : log_line) :
    (rtprintf p line).timestamped = p.timestamped := by
  unfold rtprintf
  dsimp only
  split_ifs <;> rfl

/-- A line that fits in the free part of an allocated buffer is stored whole. -/
theorem rtprintf_fits (p : prog_data) (line : log_line)
    (ha : p.log_buf_allocated = true) (hf : p.log_buf_len + line.size < LOGBUF_SIZ) :
    rtprintf p line =
      { p with log_buf := p.log_buf ++ [line], log_buf_len := p.log_buf_len + line.size } := by
  unfold log_line.size at hf
  have h : ((line.text.length : Nat) : Int) + 2 ≤ LOGBUF_SIZ - p.log_buf_len := by omega
  simp [rtprintf, ha, h, log_line.size]

theorem process_txtstamp_timestamped (p : prog_data) (buf : app_header) (t : timestamp) :
    (process_txtstamp p buf t).timestamped = p.timestamped + 1 := by
  simp [process_txtstamp, rtprintf_timestamped]

theorem process_txtstamp_same_schedule (p : prog_data) (buf : app_header) (t : timestamp) :
    p.same_schedule (process_txtstamp p buf t) := by
  have h := rtprintf_same_schedule p (log_line.txtstamp (ns_sprintf buf.tx_time) buf.seqid
    (ns_sprintf (timespec_to_ns t.hw)) (ns_sprintf (timespec_to_ns t.sw)))
  simpa [process_txtstamp, prog_data.same_schedule] using h

theorem do_work_same_schedule (w : World) (s : State) (it sch : Int) :
    s.prog.same_schedule (do_work w s it sch).2.prog := by
  unfold do_work
  dsimp only
  split_ifs
  · simp [prog_data.same_schedule]
  · simp [prog_data.same_schedule]
  · simp [prog_data.same_schedule]
  · exact prog_data.same_schedule_trans (q := { s.prog with sendbuf := ⟨sch, htons it⟩ })
      (by simp [prog_data.same_schedule]) (process_txtstamp_same_schedule _ _ _)
  · exact prog_data.same_schedule_trans (q := { s.prog with sendbuf := ⟨sch, htons it⟩ })
      (by simp [prog_data.same_schedule]) (rtprintf_same_schedule _ _)

theorem run_nanosleep_pass_same_schedule (w : World) (l : loop_state) :
    l.st.prog.same_schedule (run_nanosleep_pass w l).st.prog := by
  unfold run_nanosleep_pass
  dsimp only
  split_ifs
  · exact do_work_same_schedule w _ _ _
  · exact do_work_same_schedule w _ _ _
  · simp [prog_data.same_schedule]
  · simp [prog_data.same_schedule]

theorem run_nanosleep_pass_i (w : World) (l : loop_state) :
    (run_nanosleep_pass w l).i = l.i + 1 := by
  unfold run_nanosleep_pass
  dsimp only
  split_ifs <;> rfl



/-- One pass when capture is off, the sleep returns `0`, the send succeeds
and the line fits in the log buffer. -/
theorem run_nanosleep_pass_no_ts (w : World) (l : loop_state)
    (hts : l.st.prog.do_ts = false)
    (hsleep : ∀ k, w.nanosleep_rc k = 0) (hsend : ∀ k, 0 ≤ w.sendto_rc k)
    (ha : l.st.prog.log_buf_allocated = true)
    (hf : l.st.prog.log_buf_len +
      (log_line.no_tstamp (ns_sprintf (l.wakeup + l.st.prog.advance_time)) (htons l.i)).size <
        LOGBUF_SIZ) :
    run_nanosleep_pass w l =
      { st :=
          { prog := { l.st.prog with
                sendbuf := ⟨l.wakeup + l.st.prog.advance_time, htons l.i⟩
                log_buf := l.st.prog.log_buf ++
                  [log_line.no_tstamp (ns_sprintf (l.wakeup + l.st.prog.advance_time))
                    (htons l.i)]
                log_buf_len := l.st.prog.log_buf_len +
                  (log_line.no_tstamp (ns_sprintf (l.wakeup + l.st.prog.advance_time))
                    (htons l.i)).size }
            os := { l.st.os with
                sleeps := l.st.os.sleeps ++ [ns_to_timespec l.wakeup]
                sent := l.st.os.sent ++ [⟨l.wakeup + l.st.prog.advance_time, htons l.i⟩] } }
        i := l.i + 1
        wakeup := l.wakeup + l.st.prog.cycle_time } := by
  have h1 : ¬ w.sendto_rc l.st.os.sent.length < 0 := not_lt.mpr (hsend _)
  have hr := rtprintf_fits
    { l.st.prog with sendbuf := ⟨l.wakeup + l.st.prog.advance_time, htons l.i⟩ }
    (log_line.no_tstamp (ns_sprintf (l.wakeup + l.st.prog.advance_time)) (htons l.i)) ha hf
  have e1 : run_nanosleep_pass w l =
      { st :=
          { prog := rtprintf
              { l.st.prog with sendbuf := ⟨l.wakeup + l.st.prog.advance_time, htons l.i⟩ }
              (log_line.no_tstamp (ns_sprintf (l.wakeup + l.st.prog.advance_time)) (htons l.i))
            os := { l.st.os with
                sleeps := l.st.os.sleeps ++ [ns_to_timespec l.wakeup]
                sent := l.st.os.sent ++ [⟨l.wakeup + l.st.prog.advance_time, htons l.i⟩] } }
        i := l.i + 1
        wakeup := l.wakeup + l.st.prog.cycle_time } := by
    have hc : ∀ (p : prog_data) (line : log_line), (rtprintf p line).cycle_time = p.cycle_time :=
      fun p line => (rtprintf_same_schedule p line).2.2.2.1
    simp [run_nanosleep_pass, do_work, hsleep, h1, hts, print_no_tstamp, hc]
  rw [e1, hr]

theorem run_nanosleep_for_no_ts (w : World)
    (hsleep : ∀ k, w.nanosleep_rc k = 0) (hsend : ∀ k, 0 ≤ w.sendto_rc k) :
    ∀ (k : Nat) (l : loop_state), l.st.prog.do_ts = false →
      l.i + k ≤ l.st.prog.iterations + 1 →
      l.st.prog.log_buf_allocated = true →
      l.st.prog.log_buf_len + ((List.range k).map (fun j : Nat => (log_line.no_tstamp
          (ns_sprintf (l.wakeup + (j : Int) * l.st.prog.cycle_time + l.st.prog.advance_time))
          (htons (l.i + j))).size)).sum < LOGBUF_SIZ →
      (run_nanosleep_for w k l).i = l.i + k ∧
      l.st.prog.same_schedule (run_nanosleep_for w k l).st.prog ∧
      (run_nanosleep_for w k l).st.prog.timestamped = l.st.prog.timestamped ∧
      (run_nanosleep_for w k l).st.prog.log_buf = l.st.prog.log_buf ++
        (List.range k).map (fun j : Nat => log_line.no_tstamp
          (ns_sprintf (l.wakeup + (j : Int) * l.st.prog.cycle_time + l.st.prog.advance_time))
          (htons (l.i + j))) ∧
      (run_nanosleep_for w k l).st.os.sent = l.st.os.sent ++
        (List.range k).map (fun j : Nat => (⟨l.wakeup + (j : Int) * l.st.prog.cycle_time +
          l.st.prog.advance_time, htons (l.i + j)⟩ : app_header)) ∧
      (run_nanosleep_for w k l).st.prog.log_overrun = l.st.prog.log_overrun ∧
      (run_nanosleep_for w k l).st.prog.log_trunc = l.st.prog.log_trunc := by
  intro k
  induction k with
  | zero =>
    intro l _ _ _ _
    simp [run_nanosleep_for, prog_data.same_schedule]
  | succ k ih =>
    intro l hts hk ha hfit
    have hi : l.i ≤ l.st.prog.iterations := by push_cast at hk; omega
    rw [List.range_succ_eq_map, List.map_cons, List.map_map, List.sum_cons] at hfit
    simp only [Nat.cast_zero, zero_mul, add_zero] at hfit
    have hnn : 0 ≤ ((List.range k).map ((fun j : Nat => (log_line.no_tstamp
          (ns_sprintf (l.wakeup + (j : Int) * l.st.prog.cycle_time + l.st.prog.advance_time))
          (htons (l.i + j))).size) ∘ Nat.succ)).sum := by
      apply List.sum_nonneg
      intro x hx
      obtain ⟨j, _, rfl⟩ := List.mem_map.mp hx
      simp only [Function.comp, log_line.size]
      positivity
    have hf0 : l.st.prog.log_buf_len +
        (log_line.no_tstamp (ns_sprintf (l.wakeup + l.st.prog.advance_time)) (htons l.i)).size <
          LOGBUF_SIZ := by omega
    have hp := run_nanosleep_pass_no_ts w l hts hsleep hsend ha hf0
    have hts' : (run_nanosleep_pass w l).st.prog.do_ts = false := by rw [hp]; exact hts
    have ha' : (run_nanosleep_pass w l).st.prog.log_buf_allocated = true := by rw [hp]; exact ha
    have hk' : (run_nanosleep_pass w l).i + k ≤
        (run_nanosleep_pass w l).st.prog.iterations + 1 := by
      rw [hp]; push_cast at hk; simp only; omega
    have hline : ∀ j : Nat, log_line.no_tstamp
        (ns_sprintf ((run_nanosleep_pass w l).wakeup +
          (j : Int) * (run_nanosleep_pass w l).st.prog.cycle_time +
          (run_nanosleep_pass w l).st.prog.advance_time))
        (htons ((run_nanosleep_pass w l).i + j)) =
        log_line.no_tstamp
          (ns_sprintf (l.wakeup + ((j + 1 : Nat) : Int) * l.st.prog.cycle_time +
            l.st.prog.advance_time))
          (htons (l.i + ((j + 1 : Nat) : Int))) := by
      intro j
      rw [hp]
      simp only
      push_cast
      congr 2 <;> ring
    have hfit' : (run_nanosleep_pass w l).st.prog.log_buf_len +
        ((List.range k).map (fun j : Nat => (log_line.no_tstamp
          (ns_sprintf ((run_nanosleep_pass w l).wakeup +
            (j : Int) * (run_nanosleep_pass w l).st.prog.cycle_time +
            (run_nanosleep_pass w l).st.prog.advance_time))
          (htons ((run_nanosleep_pass w l).i + j))).size)).sum < LOGBUF_SIZ := by
      simp only [hline]
      have hlen : (run_nanosleep_pass w l).st.prog.log_buf_len = l.st.prog.log_buf_len +
          (log_line.no_tstamp (ns_sprintf (l.wakeup + l.st.prog.advance_time))
            (htons l.i)).size := by rw [hp]
      have hsum : ((List.range k).map ((fun j : Nat => (log_line.no_tstamp
            (ns_sprintf (l.wakeup + (j : Int) * l.st.prog.cycle_time + l.st.prog.advance_time))
            (htons (l.i + j))).size) ∘ Nat.succ)).sum =
          ((List.range k).map (fun j : Nat => (log_line.no_tstamp
            (ns_sprintf (l.wakeup + ((j + 1 : Nat) : Int) * l.st.prog.cycle_time +
              l.st.prog.advance_time))
            (htons (l.i + ((j + 1 : Nat) : Int)))).size)).sum := rfl
      omega
    obtain ⟨h1, h2, h3, h4, h5, h6, h7⟩ := ih (run_nanosleep_pass w l) hts' hk' ha' hfit'
    simp only [run_nanosleep_for, hi, if_true]
    refine ⟨?_, ?_, ?_, ?_, ?_, ?_, ?_⟩
    · rw [h1, hp]; push_cast; ring
    · exact prog_data.same_schedule_trans (run_nanosleep_pass_same_schedule w l) h2
    · rw [h3, hp]
    · rw [h4, List.range_succ_eq_map, List.map_cons, List.map_map]
      simp only [hline]
      rw [hp]
      simp [Function.comp]
    · rw [h5, List.range_succ_eq_map, List.map_cons, List.map_map, hp]
      simp only [List.append_assoc, List.singleton_append, Nat.cast_zero, zero_mul, add_zero]
      congr 2
      apply List.map_congr_left
      intro j _
      simp only [Function.comp, Nat.succ_eq_add_one]
      push_cast
      congr 2 <;> ring
    · rw [h6, hp]
    · rw [h7, hp]

/-- The pair `ns_sprintf` prints: the quotient truncated toward zero and the
remainder of the absolute value. -/
theorem ns_sprintf_eq (ns : Int) :
    ns_sprintf ns = ⟨ns.tdiv 1000000000, |ns| % 1000000000⟩ := by
  have hpos : (0 : Int) ≤ 1000000000 := by norm_num
  have habs : ((ns.natAbs : Nat) : Int) = |ns| := Int.natCast_natAbs ns
  simp only [ns_sprintf, ns_to_timespec, NSEC_PER_SEC, habs]
  rw [Int.tmod_eq_emod (abs_nonneg ns) hpos]

/-- Every log line has at least 20 characters. -/
theorem log_line.text_length (l : log_line) : 20 ≤ l.text.length := by
  have h09 : ∀ v : Int, 9 ≤ (fmt_09ld v).length := by
    intro v
    have hm : "-".length = 1 := rfl
    unfold fmt_09ld
    split_ifs
    · simp only [String.length_append, String.length_mk, List.length_replicate, hm]
      omega
    · simp only [String.length_append, String.length_mk, List.length_replicate]
      omega
  have h1 : "[".length = 1 := rfl
  have h2 : ".".length = 1 := rfl
  have h3 : "] seqid ".length = 8 := rfl
  have h4 : "\n".length = 1 := rfl
  cases l with
  | no_tstamp sched seqid =>
    have := h09 sched.tv_nsec
    simp only [log_line.text, timespec.text, String.length_append]
    omega
  | txtstamp sched seqid hw sw =>
    have := h09 sched.tv_nsec
    simp only [log_line.text, timespec.text, String.length_append]
    omega

/-- The log invariant survives `rtprintf`, whatever becomes of the line. -/
theorem rtprintf_log_inv (p : prog_data) (line : log_line) (h : p.log_inv) :
    (rtprintf p line).log_inv := by
  have hl := log_line.text_length line
  obtain ⟨h1, h2⟩ := h
  unfold rtprintf prog_data.log_inv
  dsimp only
  split_ifs with ha hf hz hn
  · exact ⟨by simp only; omega, h2⟩
  · simp only [List.length_append, List.length_singleton]
    push_cast
    constructor <;> omega
  · exact ⟨by simp only; omega, h2⟩
  · exact ⟨by simp only; omega, h2⟩
  · exact ⟨by simp only; omega, h2⟩

theorem do_work_log_inv (w : World) (s : State) (it sch : Int) (h : s.prog.log_inv) :
    (do_work w s it sch).2.prog.log_inv := by
  have hs : ({ s.prog with sendbuf := ⟨sch, htons it⟩ } : prog_data).log_inv := h
  unfold do_work
  dsimp only
  split_ifs
  · exact hs
  · exact hs
  · exact hs
  · have := rtprintf_log_inv _ (log_line.txtstamp
      (ns_sprintf (sk_receive (w.recv s.os.recvs) (w.err_pkt s.os.recvs) timestamp.zero
        MSG_ERRQUEUE).2.1.tx_time)
      (sk_receive (w.recv s.os.recvs) (w.err_pkt s.os.recvs) timestamp.zero
        MSG_ERRQUEUE).2.1.seqid
      (ns_sprintf (timespec_to_ns (sk_receive (w.recv s.os.recvs) (w.err_pkt s.os.recvs)
        timestamp.zero MSG_ERRQUEUE).2.2.hw))
      (ns_sprintf (timespec_to_ns (sk_receive (w.recv s.os.recvs) (w.err_pkt s.os.recvs)
        timestamp.zero MSG_ERRQUEUE).2.2.sw))) hs
    simpa [process_txtstamp, prog_data.log_inv] using this
  · exact rtprintf_log_inv _ _ hs

theorem run_nanosleep_pass_log_inv (w : World) (l : loop_state) (h : l.st.prog.log_inv) :
    (run_nanosleep_pass w l).st.prog.log_inv := by
  unfold run_nanosleep_pass
  dsimp only
  split_ifs
  · exact do_work_log_inv w _ _ _ h
  · exact do_work_log_inv w _ _ _ h
  · exact h
  · exact h

theorem run_nanosleep_for_log_inv (w : World) :
    ∀ (k : Nat) (l : loop_state), l.st.prog.log_inv →
      (run_nanosleep_for w k l).st.prog.log_inv := by
  intro k
  induction k with
  | zero => intro l h; exact h
  | succ k ih =>
    intro l h
    simp only [run_nanosleep_for]
    split_ifs
    · exact ih _ (run_nanosleep_pass_log_inv w l h)
    · exact h

theorem wait_for_txtimestamps_no_ts (w : World) (s : State) (hts : s.prog.do_ts = false) :
    wait_for_txtimestamps w s = some (0, s) := by
  simp [wait_for_txtimestamps, hts]

/-- A call of `do_work` leaves `timestamped` alone or adds one to it. -/
theorem do_work_timestamped (w : World) (s : State) (it sch : Int) :
    s.prog.timestamped ≤ (do_work w s it sch).2.prog.timestamped ∧
    (do_work w s it sch).2.prog.timestamped ≤ s.prog.timestamped + 1 := by
  unfold do_work
  dsimp only
  split_ifs <;> simp [process_txtstamp_timestamped, print_no_tstamp, rtprintf_timestamped]

/-- A pass of the `for` loop leaves `timestamped` alone or adds one to it. -/
theorem run_nanosleep_pass_timestamped (w : World) (l : loop_state) :
    l.st.prog.timestamped ≤ (run_nanosleep_pass w l).st.prog.timestamped ∧
    (run_nanosleep_pass w l).st.prog.timestamped ≤ l.st.prog.timestamped + 1 := by
  unfold run_nanosleep_pass
  dsimp only
  split_ifs
  · exact do_work_timestamped w _ _ _
  · exact do_work_timestamped w _ _ _
  · simp
  · simp

theorem run_nanosleep_for_same_schedule (w : World) :
    ∀ (k : Nat) (l : loop_state), l.st.prog.same_schedule (run_nanosleep_for w k l).st.prog := by
  intro k
  induction k with
  | zero => intro l; simp [run_nanosleep_for, prog_data.same_schedule]
  | succ k ih =>
    intro l
    simp only [run_nanosleep_for]
    split_ifs
    · exact prog_data.same_schedule_trans (run_nanosleep_pass_same_schedule w l) (ih _)
    · simp [prog_data.same_schedule]

/-- While the loop condition still holds after `k` passes, all `k` passes ran. -/
theorem run_nanosleep_for_i (w : World) :
    ∀ (k : Nat) (l : loop_state),
      (run_nanosleep_for w k l).i ≤ (run_nanosleep_for w k l).st.prog.iterations →
      (run_nanosleep_for w k l).i = l.i + k := by
  intro k
  induction k with
  | zero => intro l _; simp [run_nanosleep_for]
  | succ k ih =>
    intro l
    simp only [run_nanosleep_for]
    split_ifs with hc
    · intro h
      rw [ih _ h, run_nanosleep_pass_i]
      push_cast
      ring
    · intro h
      exact absurd h hc

/-- The `for` loop has ended after `iterations` passes. -/
theorem run_nanosleep_for_ends (w : World) (s : State) :
    ¬ (run_nanosleep_for w s.prog.iterations.toNat
        (run_nanosleep_entry s)).i ≤
      (run_nanosleep_for w s.prog.iterations.toNat
        (run_nanosleep_entry s)).st.prog.iterations := by
  intro h
  have hi := run_nanosleep_for_i w _ _ h
  have hs := (run_nanosleep_for_same_schedule w s.prog.iterations.toNat
    (run_nanosleep_entry s)).1
  rw [hi, hs] at h
  simp only [run_nanosleep_entry] at h
  have := Int.self_le_toNat s.prog.iterations
  omega

theorem run_nanosleep_for_add (w : World) :
    ∀ (a b : Nat) (l : loop_state),
      run_nanosleep_for w (a + b) l = run_nanosleep_for w b (run_nanosleep_for w a l) := by
  intro a
  induction a with
  | zero => intro b l; simp [run_nanosleep_for]
  | succ a ih =>
    intro b l
    rw [Nat.add_right_comm]
    simp only [run_nanosleep_for]
    split_ifs with hc
    · exact ih b _
    · cases b with
      | zero => rfl
      | succ b => simp [run_nanosleep_for, hc]

theorem run_nanosleep_for_inv (w : World) :
    ∀ (k : Nat) (l : loop_state), l.inv →
      (run_nanosleep_for w k l).inv ∧
      l.st.prog.timestamped ≤ (run_nanosleep_for w k l).st.prog.timestamped := by
  intro k
  induction k with
  | zero => intro l h; exact ⟨h, le_refl _⟩
  | succ k ih =>
    intro l h
    simp only [run_nanosleep_for]
    split_ifs with hc
    · have ht := run_nanosleep_pass_timestamped w l
      have hi := run_nanosleep_pass_i w l
      have hs := (run_nanosleep_pass_same_schedule w l).1
      obtain ⟨h1, h2, h3⟩ := h
      have hinv : (run_nanosleep_pass w l).inv := by
        refine ⟨by omega, by omega, by omega⟩
      obtain ⟨g1, g2⟩ := ih _ hinv
      exact ⟨g1, by omega⟩
    · exact ⟨h, le_refl _⟩

/-! ### The drain loop -/

/-- A pass of the drain loop either returns a negative code and leaves
`timestamped` alone, or does not return and adds one to it. -/
theorem wait_for_txtimestamps_pass_cases (w : World) (d : drain_state) :
    ((∃ rc, (wait_for_txtimestamps_pass w d).ret = some rc ∧ rc < 0) ∧
      (wait_for_txtimestamps_pass w d).st.prog.timestamped = d.st.prog.timestamped) ∨
    ((wait_for_txtimestamps_pass w d).ret = none ∧
      (wait_for_txtimestamps_pass w d).st.prog.timestamped = d.st.prog.timestamped + 1) := by
  unfold wait_for_txtimestamps_pass
  dsimp only
  split_ifs with h
  · left
    exact ⟨⟨_, rfl, h⟩, rfl⟩
  · right
    exact ⟨rfl, process_txtstamp_timestamped _ _ _⟩

theorem wait_for_txtimestamps_pass_same_schedule (w : World) (d : drain_state) :
    d.st.prog.same_schedule (wait_for_txtimestamps_pass w d).st.prog := by
  unfold wait_for_txtimestamps_pass
  dsimp only
  split_ifs
  · simp [prog_data.same_schedule]
  · exact process_txtstamp_same_schedule _ _ _

theorem wait_for_txtimestamps_while_same_schedule (w : World) :
    ∀ (k : Nat) (d : drain_state),
      d.st.prog.same_schedule (wait_for_txtimestamps_while w k d).st.prog := by
  intro k
  induction k with
  | zero => intro d; simp [wait_for_txtimestamps_while, prog_data.same_schedule]
  | succ k ih =>
    intro d
    simp only [wait_for_txtimestamps_while]
    split_ifs
    · exact prog_data.same_schedule_trans (wait_for_txtimestamps_pass_same_schedule w d) (ih _)
    · simp [prog_data.same_schedule]

/-- Once the loop has returned, further passes change nothing. -/
theorem wait_for_txtimestamps_while_returned (w : World) (k : Nat) (d : drain_state)
    (h : d.ret ≠ none) : wait_for_txtimestamps_while w k d = d := by
  cases k with
  | zero => rfl
  | succ k => simp [wait_for_txtimestamps_while, h]

theorem wait_for_txtimestamps_while_add (w : World) :
    ∀ (a b : Nat) (d : drain_state),
      wait_for_txtimestamps_while w (a + b) d =
        wait_for_txtimestamps_while w b (wait_for_txtimestamps_while w a d) := by
  intro a
  induction a with
  | zero => intro b d; simp [wait_for_txtimestamps_while]
  | succ a ih =>
    intro b d
    rw [Nat.add_right_comm]
    simp only [wait_for_txtimestamps_while]
    split_ifs with hc
    · exact ih b _
    · cases b with
      | zero => rfl
      | succ b => simp only [wait_for_txtimestamps_while, hc, if_false]

theorem wait_for_txtimestamps_while_inv (w : World) :
    ∀ (k : Nat) (d : drain_state), d.inv →
      (wait_for_txtimestamps_while w k d).inv ∧
      d.st.prog.timestamped ≤ (wait_for_txtimestamps_while w k d).st.prog.timestamped := by
  intro k
  induction k with
  | zero => intro d h; exact ⟨h, le_refl _⟩
  | succ k ih =>
    intro d h
    simp only [wait_for_txtimestamps_while]
    split_ifs with hc
    · have hs := (wait_for_txtimestamps_pass_same_schedule w d).1
      obtain ⟨h1, h2, _⟩ := h
      have hinv : (wait_for_txtimestamps_pass w d).inv ∧
          d.st.prog.timestamped ≤ (wait_for_txtimestamps_pass w d).st.prog.timestamped := by
        rcases wait_for_txtimestamps_pass_cases w d with ⟨⟨rc, hr, hneg⟩, ht⟩ | ⟨hr, ht⟩
        · refine ⟨⟨by omega, by omega, ?_⟩, by omega⟩
          intro rc' hrc'
          rw [hr] at hrc'
          cases hrc'
          exact hneg
        · refine ⟨⟨by omega, by omega, ?_⟩, by omega⟩
          intro rc' hrc'
          rw [hr] at hrc'
          cases hrc'
      obtain ⟨g1, g2⟩ := ih _ hinv.1
      exact ⟨g1, le_trans hinv.2 g2⟩
    · exact ⟨h, le_refl _⟩

/-- While the drain loop has neither returned nor ended after `k` passes, all
`k` passes ran and each added one to `timestamped`. -/
theorem wait_for_txtimestamps_while_count (w : World) :
    ∀ (k : Nat) (d : drain_state),
      (wait_for_txtimestamps_while w k d).ret = none →
      (wait_for_txtimestamps_while w k d).st.prog.timestamped <
        (wait_for_txtimestamps_while w k d).st.prog.iterations →
      (wait_for_txtimestamps_while w k d).st.prog.timestamped = d.st.prog.timestamped + k := by
  intro k
  induction k with
  | zero => intro d _ _; simp [wait_for_txtimestamps_while]
  | succ k ih =>
    intro d
    simp only [wait_for_txtimestamps_while]
    split_ifs with hc
    · intro hr hlt
      rcases wait_for_txtimestamps_pass_cases w d with ⟨⟨rc, hr', _⟩, _⟩ | ⟨_, ht⟩
      · have hne : (wait_for_txtimestamps_pass w d).ret ≠ none := by rw [hr']; simp
        rw [wait_for_txtimestamps_while_returned w k _ hne] at hr
        exact absurd hr hne
      · rw [ih _ hr hlt, ht]
        push_cast
        ring
    · intro hr hlt
      exact absurd ⟨hr, hlt⟩ hc

/-- Totality of `wait_for_txtimestamps`: it always returns. -/
theorem wait_for_txtimestamps_returns (w : World) (s : State) :
    ∃ r, wait_for_txtimestamps w s = some r := by
  unfold wait_for_txtimestamps
  split_ifs
  · exact ⟨_, rfl⟩
  · dsimp only
    split
    · exact ⟨_, rfl⟩
    · rename_i hr
      split_ifs with hlt
      · exfalso
        have hc := wait_for_txtimestamps_while_count w _ _ hr hlt
        have hs := (wait_for_txtimestamps_while_same_schedule w
          (s.prog.iterations - s.prog.timestamped).toNat (wait_for_txtimestamps_entry w s)).1
        rw [hc, hs] at hlt
        simp only [wait_for_txtimestamps_entry] at hlt
        have := Int.self_le_toNat (s.prog.iterations - s.prog.timestamped)
        omega
      · exact ⟨_, rfl⟩

/-- Totality of `run_nanosleep`: it always returns. -/
theorem run_nanosleep_returns (w : World) (s : State) :
    ∃ r, run_nanosleep w s = some r := by
  simp only [run_nanosleep, run_nanosleep_for_ends w s, if_false]
  exact wait_for_txtimestamps_returns w _

/-! ### The claims about the scheduler -/

/-- C2: at `base = 0`, `cycle = 1 s` and `now = 101 s` the instant `now` is
itself of the form `base + n * cycle` (`n = 101`), yet `future_base_time`
returns `102 s`, one cycle later: the result is not `base + n * cycle` for the
smallest `n ≥ 1` with `base + n * cycle ≥ now`.  `prog_init` does the same
with a cycle and an advance of `1 s` when the clock reads `100 s`: the
normalised base `-1 s` is wound to `102 s`, past the grid instant `101 s`. -/
theorem future_base_time_on_grid_skips_now :
    future_base_time 0 1000000000 101000000000 = some 102000000000 ∧
    (¬ ∃ n : Int,
      (1 ≤ n ∧ 0 + n * 1000000000 ≥ 101000000000 ∧
        ∀ m : Int, 1 ≤ m → 0 + m * 1000000000 ≥ 101000000000 → n ≤ m) ∧
      future_base_time 0 1000000000 101000000000 = some (0 + n * 1000000000)) ∧
    (prog_init quiet_world
      { prog := { prog_data.zero with cycle_time := 1000000000, advance_time := 1000000000 }
        os := os_trace.empty }).map (fun r => r.2.prog.base_time) = some 102000000000 := by
  refine ⟨by decide, ?_, by decide⟩
  rintro ⟨n, ⟨_, _, hmin⟩, hn⟩
  have h101 := hmin 101 (by norm_num) (by norm_num)
  have hval : future_base_time 0 1000000000 101000000000 = some 102000000000 := by decide
  rw [hval] at hn
  have := Option.some.inj hn
  omega

/-- The texts of two log lines, one of each kind. -/
theorem log_line_text_examples :
    (log_line.no_tstamp ⟨7, 500000000⟩ 1).text = "[7.500000000] seqid 1\n" ∧
    (log_line.txtstamp ⟨7, 5⟩ 65535 ⟨-1, 0⟩ ⟨0, 999999999⟩).text =
      "[7.000000005] seqid 65535 txtstamp -1.000000000 swts 0.999999999\n" := by
  decide

/-- A line of 22 characters at the end of the buffer: with 24 bytes allowed it
is stored whole; with 23 its 22 characters are stored and the zero byte lands
past the end; with none allowed nothing is written; past the end the whole
write is outside.  The write position advances by 23 every time. -/
theorem rtprintf_at_end_of_buffer :
    (rtprintf { three_cycles.prog with log_buf_len := LOGBUF_SIZ - 24 }
        (log_line.no_tstamp ⟨7, 500000000⟩ 1)) =
      { three_cycles.prog with
        log_buf := [log_line.no_tstamp ⟨7, 500000000⟩ 1], log_buf_len := LOGBUF_SIZ - 1 } ∧
    (rtprintf { three_cycles.prog with log_buf_len := LOGBUF_SIZ - 23 }
        (log_line.no_tstamp ⟨7, 500000000⟩ 1)) =
      { three_cycles.prog with
        log_trunc := some (log_line.no_tstamp ⟨7, 500000000⟩ 1, 22), log_overrun := true,
        log_buf_len := LOGBUF_SIZ } ∧
    (rtprintf { three_cycles.prog with log_buf_len := LOGBUF_SIZ }
        (log_line.no_tstamp ⟨7, 500000000⟩ 1)) =
      { three_cycles.prog with log_buf_len := LOGBUF_SIZ + 23 } ∧
    (rtprintf { three_cycles.prog with log_buf_len := LOGBUF_SIZ + 23 }
        (log_line.no_tstamp ⟨7, 500000000⟩ 1)) =
      { three_cycles.prog with log_overrun := true, log_buf_len := LOGBUF_SIZ + 46 } := by
  decide

/-- A failed `SIOCGIFINDEX` makes `prog_init` return the `0` left by
`setsockopt` before the log buffer is allocated; `isochron_send_main` goes on,
and the first `rtprintf` writes through the null `log_buf`. -/
theorem isochron_send_main_without_log_buf :
    (isochron_send_main { quiet_world with ioctl_ifindex_rc := -1 } 4 4
      { prog_data.zero with iterations := 1, cycle_time := 1000000000, do_ts := true }).map
        (fun r => (r.1, r.2.prog.log_buf_allocated, r.2.prog.log_buf, r.2.prog.log_overrun)) =
      some (0, false, [], true) := by
  decide

/-- C3 as stated fails: in the run `many_cycles` timestamp capture is off,
every `clock_nanosleep` returns `0` and every `sendto` succeeds, and the run
returns `0`, but of the 600000 lines fewer than 600000 are in the log buffer
at the end: each line takes at least 21 of its 10485760 bytes, and `rtprintf`
stores no line that does not fit. -/
theorem run_nanosleep_log_buffer_too_small :
    many_cycles.prog.do_ts = false ∧ many_cycles.prog.iterations = 600000 ∧
    many_cycles.prog.log_buf = [] ∧
    (∀ k, quiet_world.nanosleep_rc k = 0) ∧ (∀ k, 0 ≤ quiet_world.sendto_rc k) ∧
    ∃ s', run_nanosleep quiet_world many_cycles = some (0, s') ∧
      s'.prog.log_buf.length < 600000 := by
  refine ⟨rfl, rfl, rfl, fun _ => rfl, fun _ => (by decide : (0 : Int) ≤ 64), ?_⟩
  have hinv : (run_nanosleep_entry many_cycles).st.prog.log_inv := by
    simp only [prog_data.log_inv, run_nanosleep_entry]
    decide
  have hend := run_nanosleep_for_log_inv quiet_world many_cycles.prog.iterations.toNat
    (run_nanosleep_entry many_cycles) hinv
  have hts : (run_nanosleep_for quiet_world many_cycles.prog.iterations.toNat
      (run_nanosleep_entry many_cycles)).st.prog.do_ts = false := by
    rw [(run_nanosleep_for_same_schedule quiet_world _ _).2.2.2.2.2]
    rfl
  refine ⟨(run_nanosleep_for quiet_world many_cycles.prog.iterations.toNat
    (run_nanosleep_entry many_cycles)).st, ?_, ?_⟩
  · simp only [run_nanosleep, run_nanosleep_for_ends quiet_world many_cycles, if_false]
    exact wait_for_txtimestamps_no_ts quiet_world _ hts
  · have h2 := hend.2
    simp only [LOGBUF_SIZ] at h2
    omega

/-- C3, amended: with timestamp capture off, `iterations = N ≥ 0`, every
`clock_nanosleep` returning `0`, every `sendto` succeeding, the log buffer
allocated and the `N` lines, each with its terminating zero byte, fitting
after `log_buf_len` in its `LOGBUF_SIZ` bytes, `run_nanosleep` returns `0`
having stored exactly `N` lines in the log buffer, in order and whole: for
`i = 1, …, N`, line `i` prints the seconds and nanoseconds of the scheduled
time `base_time + (i - 1) * cycle_time + advance_time` and the sequence id
`i mod 65536`.  The frames handed to `sendto` carry the same scheduled times,
so consecutive ones are `cycle_time` apart, and no write leaves the buffer. -/
theorem run_nanosleep_logs_cycles_that_fit (w : World) (s : State)
    (hts : s.prog.do_ts = false) (hN : 0 ≤ s.prog.iterations)
    (hsleep : ∀ k, w.nanosleep_rc k = 0) (hsend : ∀ k, 0 ≤ w.sendto_rc k)
    (halloc : s.prog.log_buf_allocated = true)
    (hfit : s.prog.log_buf_len +
      ((List.range' 1 s.prog.iterations.toNat).map (fun i : Nat => (log_line.no_tstamp
        ⟨(s.prog.base_time + ((i : Int) - 1) * s.prog.cycle_time +
            s.prog.advance_time).tdiv 1000000000,
          |s.prog.base_time + ((i : Int) - 1) * s.prog.cycle_time + s.prog.advance_time| %
            1000000000⟩
        ((i : Int) % 65536)).size)).sum < LOGBUF_SIZ) :
    ∃ s', run_nanosleep w s = some (0, s') ∧
      s'.prog.log_buf = s.prog.log_buf ++
        (List.range' 1 s.prog.iterations.toNat).map (fun i : Nat => log_line.no_tstamp
          ⟨(s.prog.base_time + ((i : Int) - 1) * s.prog.cycle_time +
              s.prog.advance_time).tdiv 1000000000,
            |s.prog.base_time + ((i : Int) - 1) * s.prog.cycle_time + s.prog.advance_time| %
              1000000000⟩
          ((i : Int) % 65536)) ∧
      s'.os.sent = s.os.sent ++
        (List.range' 1 s.prog.iterations.toNat).map (fun i : Nat =>
          (⟨s.prog.base_time + ((i : Int) - 1) * s.prog.cycle_time + s.prog.advance_time,
            (i : Int) % 65536⟩ : app_header)) ∧
      s'.prog.log_overrun = s.prog.log_overrun ∧ s'.prog.log_trunc = s.prog.log_trunc := by
  have hk : (run_nanosleep_entry s).i + (s.prog.iterations.toNat : Nat) ≤
      (run_nanosleep_entry s).st.prog.iterations + 1 := by
    simp only [run_nanosleep_entry]
    rw [Int.toNat_of_nonneg hN]; omega
  have hline : ∀ j : Nat, log_line.no_tstamp
      (ns_sprintf ((run_nanosleep_entry s).wakeup +
        (j : Int) * (run_nanosleep_entry s).st.prog.cycle_time +
        (run_nanosleep_entry s).st.prog.advance_time))
      (htons ((run_nanosleep_entry s).i + j)) =
      log_line.no_tstamp
        ⟨(s.prog.base_time + (((1 + j : Nat) : Int) - 1) * s.prog.cycle_time +
            s.prog.advance_time).tdiv 1000000000,
          |s.prog.base_time + (((1 + j : Nat) : Int) - 1) * s.prog.cycle_time +
            s.prog.advance_time| % 1000000000⟩
        (((1 + j : Nat) : Int) % 65536) := by
    intro j
    rw [← ns_sprintf_eq]
    simp only [run_nanosleep_entry, htons]
    push_cast
    congr 2
    ring
  have hfit' : (run_nanosleep_entry s).st.prog.log_buf_len +
      ((List.range s.prog.iterations.toNat).map (fun j : Nat => (log_line.no_tstamp
        (ns_sprintf ((run_nanosleep_entry s).wakeup +
          (j : Int) * (run_nanosleep_entry s).st.prog.cycle_time +
          (run_nanosleep_entry s).st.prog.advance_time))
        (htons ((run_nanosleep_entry s).i + j))).size)).sum < LOGBUF_SIZ := by
    simp only [hline]
    rw [List.range'_eq_map_range, List.map_map] at hfit
    exact hfit
  obtain ⟨_, h2, _, h4, h5, h6, h7⟩ := run_nanosleep_for_no_ts w hsleep hsend
    s.prog.iterations.toNat (run_nanosleep_entry s) hts hk halloc hfit'
  have hts' : (run_nanosleep_for w s.prog.iterations.toNat
      (run_nanosleep_entry s)).st.prog.do_ts = false := by
    rw [h2.2.2.2.2.2]; exact hts
  refine ⟨(run_nanosleep_for w s.prog.iterations.toNat (run_nanosleep_entry s)).st,
    ?_, ?_, ?_, h6, h7⟩
  · simp only [run_nanosleep, run_nanosleep_for_ends w s, if_false]
    exact wait_for_txtimestamps_no_ts w _ hts'
  · rw [h4, List.range'_eq_map_range, List.map_map]
    simp only [hline]
    rfl
  · rw [h5, List.range'_eq_map_range, List.map_map]
    simp only [run_nanosleep_entry, htons]
    congr 1
    apply List.map_congr_left
    intro j _
    simp only [Function.comp]
    push_cast
    congr 2
    ring

/-- Witness of C3: three cycles of one second in a world where every call
succeeds; the three lines take 69 bytes of the buffer. -/
theorem run_nanosleep_logs_cycles_that_fit_witness :
    ∃ s', run_nanosleep quiet_world three_cycles = some (0, s') ∧
      s'.prog.log_buf = three_cycles.prog.log_buf ++
        (List.range' 1 three_cycles.prog.iterations.toNat).map (fun i : Nat =>
          log_line.no_tstamp
            ⟨(three_cycles.prog.base_time + ((i : Int) - 1) * three_cycles.prog.cycle_time +
                three_cycles.prog.advance_time).tdiv 1000000000,
              |three_cycles.prog.base_time + ((i : Int) - 1) * three_cycles.prog.cycle_time +
                three_cycles.prog.advance_time| % 1000000000⟩
            ((i : Int) % 65536)) ∧
      s'.os.sent = three_cycles.os.sent ++
        (List.range' 1 three_cycles.prog.iterations.toNat).map (fun i : Nat =>
          (⟨three_cycles.prog.base_time + ((i : Int) - 1) * three_cycles.prog.cycle_time +
            three_cycles.prog.advance_time, (i : Int) % 65536⟩ : app_header)) ∧
      s'.prog.log_overrun = three_cycles.prog.log_overrun ∧
      s'.prog.log_trunc = three_cycles.prog.log_trunc :=
  run_nanosleep_logs_cycles_that_fit quiet_world three_cycles rfl (by decide)
    (fun _ => rfl) (fun _ => (by decide : (0 : Int) ≤ 64)) rfl (by decide)

/-- C4: three cycles whose first `clock_nanosleep` returns `EINTR`.  The sleep
is repeated with the same wake instant (`7 s` twice), but `continue` has run
the `i++` of the `for` loop: only two frames are sent, with sequence ids `2`
and `3`, and id `1` is never sent. -/
theorem run_nanosleep_eintr_skips_a_cycle :
    (run_nanosleep { quiet_world with nanosleep_rc := fun k => if k = 0 then EINTR else 0 }
      three_cycles).map
        (fun r => (r.1, r.2.os.sent.map app_header.seqid, r.2.os.sleeps)) =
      some (0, [2, 3], [⟨7, 0⟩, ⟨7, 0⟩, ⟨8, 0⟩]) := by
  decide

/-- C5: three cycles in which the first `sendto` fails, three cycles in which
the first `clock_nanosleep` fails with `EINVAL`, and three cycles with capture
on in which the first read of the timestamp channel fails.  In each run the
`break` only leaves the `switch`: the loop goes on to sleep three times in
all and to send the later frames, and `run_nanosleep` returns `0`. -/
theorem run_nanosleep_continues_after_failure :
    (run_nanosleep { quiet_world with sendto_rc := fun k => if k = 0 then -1 else 64 }
      three_cycles).map
        (fun r => (r.1, r.2.os.sleeps.length, r.2.os.sent.map app_header.seqid)) =
      some (0, 3, [1, 2, 3]) ∧
    (run_nanosleep { quiet_world with nanosleep_rc := fun k => if k = 0 then EINVAL else 0 }
      three_cycles).map
        (fun r => (r.1, r.2.os.sleeps.length, r.2.os.sent.map app_header.seqid)) =
      some (0, 3, [2, 3]) ∧
    (run_nanosleep
      { quiet_world with
        recv := fun k => if k = 0 then { recv_timeout with poll_rc := -1 } else recv_timeout }
      three_cycles_ts).map
        (fun r => (r.1, r.2.os.sleeps.length, r.2.os.sent.map app_header.seqid)) =
      some (0, 3, [1, 2, 3]) := by
  decide

/-- C6: the drain phase entered with 3 of 5 timestamps retrieved, on a channel
where every `poll` times out.  `sk_receive` returns `0` for a timeout, which
the loop does not take for a failure: each timed-out read is processed as a
timestamp, `timestamped` climbs to `5`, two lines are logged and the function
returns `0`. -/
theorem wait_for_txtimestamps_counts_timeouts :
    sk_receive recv_timeout ⟨0, 0⟩ timestamp.zero MSG_ERRQUEUE = (0, ⟨0, 0⟩, timestamp.zero) ∧
    (wait_for_txtimestamps quiet_world three_of_five).map
        (fun r => (r.1, r.2.prog.timestamped, r.2.prog.log_buf.length, r.2.os.recvs)) =
      some (0, 5, 2, 2) := by
  decide

/-- C7: one `do_work` with capture on and a `poll` that reports no event.
`sk_receive` returns `0`, not `-EAGAIN`, so `do_work` goes on to
`process_txtstamp`: it returns `0`, but `timestamped` went from `0` to `1` and
one line was logged although no timestamp was retrieved. -/
theorem do_work_counts_missing_timestamp :
    (quiet_world.recv 0).poll_rc = 0 ∧
    three_cycles_ts.prog.timestamped = 0 ∧ three_cycles_ts.prog.log_buf = [] ∧
    (do_work quiet_world three_cycles_ts 1 7500000000).1 = 0 ∧
    (do_work quiet_world three_cycles_ts 1 7500000000).2.prog.timestamped = 1 ∧
    (do_work quiet_world three_cycles_ts 1 7500000000).2.prog.log_buf =
      [log_line.txtstamp ⟨0, 0⟩ 0 ⟨0, 0⟩ ⟨0, 0⟩] := by
  decide

/-- C8: in a run with `iterations ≥ 0` that starts from `timestamped = 0`,
whatever the sleeps, the sends and the timestamp channel do, `timestamped`
stays within `0 .. iterations` and never decreases: after every pass of the
`for` loop of `run_nanosleep`, and after every pass of the loop of
`wait_for_txtimestamps` entered from the end of the `for` loop.  The run
returns, and when it returns `0` with capture on, `timestamped = iterations`. -/
theorem timestamped_within_iterations (w : World) (s : State)
    (h0 : s.prog.timestamped = 0) (hN : 0 ≤ s.prog.iterations) :
    (∀ k : Nat,
      0 ≤ (run_nanosleep_after w s k).prog.timestamped ∧
      (run_nanosleep_after w s k).prog.timestamped ≤ s.prog.iterations ∧
      (run_nanosleep_after w s k).prog.timestamped ≤
        (run_nanosleep_after w s (k + 1)).prog.timestamped) ∧
    (∀ k : Nat,
      (run_nanosleep_after w s s.prog.iterations.toNat).prog.timestamped ≤
        (run_nanosleep_drain_after w s k).prog.timestamped ∧
      (run_nanosleep_drain_after w s k).prog.timestamped ≤ s.prog.iterations ∧
      (run_nanosleep_drain_after w s k).prog.timestamped ≤
        (run_nanosleep_drain_after w s (k + 1)).prog.timestamped) ∧
    (∃ r, run_nanosleep w s = some r) ∧
    (∀ rc s', run_nanosleep w s = some (rc, s') →
      0 ≤ s'.prog.timestamped ∧ s'.prog.timestamped ≤ s'.prog.iterations ∧
      (rc = 0 → s'.prog.do_ts = true → s'.prog.timestamped = s'.prog.iterations)) := by
  simp only [run_nanosleep_drain_after, run_nanosleep_after]
  have hentry : (run_nanosleep_entry s).inv := by
    simp only [loop_state.inv, run_nanosleep_entry]
    omega
  have hloop : ∀ k : Nat, (run_nanosleep_for w k (run_nanosleep_entry s)).inv := fun k =>
    (run_nanosleep_for_inv w k _ hentry).1
  have hiter : ∀ k : Nat,
      (run_nanosleep_for w k (run_nanosleep_entry s)).st.prog.iterations = s.prog.iterations :=
    fun k => (run_nanosleep_for_same_schedule w k (run_nanosleep_entry s)).1
  have hdentry : (wait_for_txtimestamps_entry w
      (run_nanosleep_for w s.prog.iterations.toNat (run_nanosleep_entry s)).st).inv := by
    obtain ⟨h1, h2, h3⟩ := hloop s.prog.iterations.toNat
    refine ⟨h1, ?_, ?_⟩
    · simp only [wait_for_txtimestamps_entry]
      omega
    · intro rc hrc
      simp [wait_for_txtimestamps_entry] at hrc
  have hdrain : ∀ k : Nat, (wait_for_txtimestamps_while w k (wait_for_txtimestamps_entry w
      (run_nanosleep_for w s.prog.iterations.toNat (run_nanosleep_entry s)).st)).inv := fun k =>
    (wait_for_txtimestamps_while_inv w k _ hdentry).1
  have hditer : ∀ k : Nat, (wait_for_txtimestamps_while w k (wait_for_txtimestamps_entry w
      (run_nanosleep_for w s.prog.iterations.toNat
        (run_nanosleep_entry s)).st)).st.prog.iterations = s.prog.iterations := by
    intro k
    rw [(wait_for_txtimestamps_while_same_schedule w k _).1]
    exact hiter _
  refine ⟨?_, ?_, run_nanosleep_returns w s, ?_⟩
  · intro k
    obtain ⟨h1, h2, h3⟩ := hloop k
    have hi := hiter k
    refine ⟨h1, by omega, ?_⟩
    rw [run_nanosleep_for_add w k 1]
    exact (run_nanosleep_for_inv w 1 _ (hloop k)).2
  · intro k
    obtain ⟨_, h2, _⟩ := hdrain k
    have hi := hditer k
    refine ⟨(wait_for_txtimestamps_while_inv w k _ hdentry).2, by omega, ?_⟩
    rw [wait_for_txtimestamps_while_add w k 1]
    exact (wait_for_txtimestamps_while_inv w 1 _ (hdrain k)).2
  · intro rc s'
    simp only [run_nanosleep, run_nanosleep_for_ends w s, if_false]
    unfold wait_for_txtimestamps
    split_ifs with hdo
    · intro h
      obtain ⟨h1, h2, h3⟩ := hloop s.prog.iterations.toNat
      simp only [Option.some.injEq, Prod.mk.injEq] at h
      obtain ⟨_, rfl⟩ := h
      refine ⟨h1, by omega, ?_⟩
      intro _ hts
      rw [hts] at hdo
      simp at hdo
    · dsimp only
      have hfuel := hdrain ((run_nanosleep_for w s.prog.iterations.toNat
        (run_nanosleep_entry s)).st.prog.iterations -
        (run_nanosleep_for w s.prog.iterations.toNat
          (run_nanosleep_entry s)).st.prog.timestamped).toNat
      obtain ⟨g1, g2, g3⟩ := hfuel
      split
      · rename_i rc' hr
        intro h
        simp only [Option.some.injEq, Prod.mk.injEq] at h
        obtain ⟨rfl, rfl⟩ := h
        refine ⟨g1, g2, ?_⟩
        intro hz
        have := g3 _ hr
        omega
      · split_ifs with hlt
        · intro h
          cases h
        · intro h
          simp only [Option.some.injEq, Prod.mk.injEq] at h
          obtain ⟨_, rfl⟩ := h
          refine ⟨g1, g2, ?_⟩
          intro _ _
          omega

/-- Witness of C8: three cycles with capture on and a silent channel. -/
theorem timestamped_within_iterations_witness :
    (∀ k : Nat,
      0 ≤ (run_nanosleep_after quiet_world three_cycles_ts k).prog.timestamped ∧
      (run_nanosleep_after quiet_world three_cycles_ts k).prog.timestamped ≤ three_cycles_ts.prog.iterations ∧
      (run_nanosleep_after quiet_world three_cycles_ts k).prog.timestamped ≤
        (run_nanosleep_after quiet_world three_cycles_ts (k + 1)).prog.timestamped) ∧
    (∀ k : Nat,
      (run_nanosleep_after quiet_world three_cycles_ts three_cycles_ts.prog.iterations.toNat).prog.timestamped ≤
        (run_nanosleep_drain_after quiet_world three_cycles_ts k).prog.timestamped ∧
      (run_nanosleep_drain_after quiet_world three_cycles_ts k).prog.timestamped ≤ three_cycles_ts.prog.iterations ∧
      (run_nanosleep_drain_after quiet_world three_cycles_ts k).prog.timestamped ≤
        (run_nanosleep_drain_after quiet_world three_cycles_ts (k + 1)).prog.timestamped) ∧
    (∃ r, run_nanosleep quiet_world three_cycles_ts = some r) ∧
    (∀ rc s', run_nanosleep quiet_world three_cycles_ts = some (rc, s') →
      0 ≤ s'.prog.timestamped ∧ s'.prog.timestamped ≤ s'.prog.iterations ∧
      (rc = 0 → s'.prog.do_ts = true → s'.prog.timestamped = s'.prog.iterations)) :=
  timestamped_within_iterations quiet_world three_cycles_ts rfl (by decide)

/-- C9: when `prog_parse_np_args` consumed every argument, the schedule check
of `prog_parse_args`, made after a zero `advance_time` is replaced by
`cycle_time`, returns `0` exactly when `advance_time ≤ cycle_time` and
`shift_time ≤ cycle_time`; otherwise it returns `-EINVAL`, and
`isochron_send_main` returns `-EINVAL` with no system call of `prog_init`
made: no socket, log buffer, memory lock or timestamping set up. -/
theorem prog_parse_args_schedule_check (w : World) (argc np_rc : Int) (prog : prog_data)
    (hnp : 0 ≤ np_rc) (hargc : argc ≤ np_rc) :
    ((prog_parse_args argc np_rc prog).1 = 0 ↔
      (if prog.advance_time = 0 then prog.cycle_time else prog.advance_time) ≤ prog.cycle_time ∧
        prog.shift_time ≤ prog.cycle_time) ∧
    (¬ ((if prog.advance_time = 0 then prog.cycle_time else prog.advance_time) ≤
          prog.cycle_time ∧ prog.shift_time ≤ prog.cycle_time) →
      (prog_parse_args argc np_rc prog).1 = -EINVAL ∧
      ∃ s, isochron_send_main w argc np_rc prog = some (-EINVAL, s) ∧
        s.os = os_trace.empty) := by
  have h1 : ¬ np_rc < 0 := not_lt.mpr hnp
  have h2 : ¬ np_rc < argc := not_lt.mpr hargc
  by_cases ha : prog.advance_time = 0
  · by_cases hs : prog.shift_time ≤ prog.cycle_time
    · have hs' : ¬ prog.cycle_time < prog.shift_time := not_lt.mpr hs
      simp [prog_parse_args, h1, h2, ha, hs, hs']
    · have hs' : prog.shift_time > prog.cycle_time := lt_of_not_ge hs
      simp [prog_parse_args, isochron_send_main, h1, h2, ha, hs, hs', EINVAL]
  · by_cases hadv : prog.advance_time ≤ prog.cycle_time
    · by_cases hs : prog.shift_time ≤ prog.cycle_time
      · have hadv' : ¬ prog.advance_time > prog.cycle_time := not_lt.mpr hadv
        have hs' : ¬ prog.shift_time > prog.cycle_time := not_lt.mpr hs
        simp [prog_parse_args, h1, h2, ha, hadv, hs, hadv', hs']
      · have hadv' : ¬ prog.advance_time > prog.cycle_time := not_lt.mpr hadv
        have hs' : prog.shift_time > prog.cycle_time := lt_of_not_ge hs
        simp [prog_parse_args, isochron_send_main, h1, h2, ha, hadv, hs, hadv', hs', EINVAL]
    · have hadv' : prog.advance_time > prog.cycle_time := lt_of_not_ge hadv
      simp [prog_parse_args, isochron_send_main, h1, h2, ha, hadv, hadv', EINVAL]

/-- Witness of C9: all 10 arguments consumed, default advance and shift, a
cycle of one second. -/
theorem prog_parse_args_schedule_check_witness :
    ((prog_parse_args 10 10 three_cycles.prog).1 = 0 ↔
      (if three_cycles.prog.advance_time = 0 then three_cycles.prog.cycle_time
        else three_cycles.prog.advance_time) ≤ three_cycles.prog.cycle_time ∧
        three_cycles.prog.shift_time ≤ three_cycles.prog.cycle_time) ∧
    (¬ ((if three_cycles.prog.advance_time = 0 then three_cycles.prog.cycle_time
          else three_cycles.prog.advance_time) ≤ three_cycles.prog.cycle_time ∧
          three_cycles.prog.shift_time ≤ three_cycles.prog.cycle_time) →
      (prog_parse_args 10 10 three_cycles.prog).1 = -EINVAL ∧
      ∃ s, isochron_send_main quiet_world 10 10 three_cycles.prog = some (-EINVAL, s) ∧
        s.os = os_trace.empty) :=
  prog_parse_args_schedule_check quiet_world 10 10 three_cycles.prog (by decide) (by decide)

/-- C10: a cycle time of `0` with the default (zero) advance and shift passes
the check of `prog_parse_args`, although `cycle_time > 0` fails; `prog_init`
then winds the base time with it and `future_base_time` divides by zero. -/
theorem prog_parse_args_accepts_zero_cycle :
    prog_parse_args 4 4 { prog_data.zero with iterations := 2, cycle_time := 0 } =
      (0, { prog_data.zero with iterations := 2, cycle_time := 0 }) ∧
    ¬ (0 < ({ prog_data.zero with iterations := 2, cycle_time := 0 } : prog_data).cycle_time) ∧
    future_base_time 0 0 101000000000 = none ∧
    isochron_send_main quiet_world 4 4 { prog_data.zero with iterations := 2, cycle_time := 0 } =
      none := by
  decide

/-! ### Time utilities -/

/-- C16: for `base < now` and `cycle > 0`, `future_base_time base cycle now`
returns the least value of the form `base + n * cycle`, `n` an integer, that
is strictly greater than `now`; it lies in `(now, now + cycle]` and is never
`now` itself, also when `now` is on the cycle grid. -/
theorem future_base_time_least_after_now (base cycle now : Int)
    (hb : base < now) (hc : 0 < cycle) :
    ∃ r, future_base_time base cycle now = some r ∧
      (∃ n : Int, r = base + n * cycle) ∧ now < r ∧
      (∀ m : Int, now < base + m * cycle → r ≤ base + m * cycle) ∧
      r ≤ now + cycle ∧ r ≠ now := by
  have hnb : ¬ base ≥ now := not_le.mpr hb
  have hne : cycle ≠ 0 := ne_of_gt hc
  have hnn : 0 ≤ now - base := by omega
  have hdiv : (now - base).tdiv cycle = (now - base) / cycle :=
    Int.tdiv_eq_ediv hnn (le_of_lt hc)
  have hlt := Int.lt_ediv_add_one_mul_self (now - base) hc
  have hle : (now - base) / cycle * cycle ≤ now - base := Int.ediv_mul_le (now - base) hne
  refine ⟨base + ((now - base) / cycle + 1) * cycle, ?_, ⟨_, rfl⟩, by linarith, ?_,
    by linarith, by linarith⟩
  · simp [future_base_time, hnb, hne, hdiv]
  · intro m hm
    have h1 : (now - base) / cycle * cycle < m * cycle := by linarith
    have h2 : (now - base) / cycle < m := lt_of_mul_lt_mul_right h1 (le_of_lt hc)
    have h3 : (now - base) / cycle + 1 ≤ m := h2
    have h4 : ((now - base) / cycle + 1) * cycle ≤ m * cycle :=
      mul_le_mul_of_nonneg_right h3 (le_of_lt hc)
    linarith

/-- Witness of C16 with `now` on the grid: `base = 0`, `cycle = 5`, `now = 10`. -/
theorem future_base_time_least_after_now_witness :
    ∃ r, future_base_time 0 5 10 = some r ∧
      (∃ n : Int, r = 0 + n * 5) ∧ 10 < r ∧
      (∀ m : Int, 10 < 0 + m * 5 → r ≤ 0 + m * 5) ∧
      r ≤ 10 + 5 ∧ r ≠ 10 :=
  future_base_time_least_after_now 0 5 10 (by decide) (by decide)

/-- C14: for `ns ≥ 0`, `timespec_to_ns (ns_to_timespec ns) = ns`, and the
product `tv_sec * NSEC_PER_SEC` formed on the way lies in `0 .. ns`; for
`ns < 0`, `ns_to_timespec ns` has `tv_sec` equal to `ns / 10^9` truncated
toward zero, that is `-((-ns) / 10^9)`, and `tv_nsec` equal to
`|ns| mod 10^9`, which lies in `[0, 10^9)`. -/
theorem ns_to_timespec_roundtrip_and_sign (ns : Int) :
    (0 ≤ ns →
      timespec_to_ns (ns_to_timespec ns) = ns ∧
      0 ≤ (ns_to_timespec ns).tv_sec * NSEC_PER_SEC ∧
      (ns_to_timespec ns).tv_sec * NSEC_PER_SEC ≤ ns) ∧
    (ns < 0 →
      (ns_to_timespec ns).tv_sec = -((-ns) / 1000000000) ∧
      (ns_to_timespec ns).tv_nsec = |ns| % 1000000000 ∧
      0 ≤ (ns_to_timespec ns).tv_nsec ∧ (ns_to_timespec ns).tv_nsec < 1000000000) := by
  have hpos : (0 : Int) < 1000000000 := by norm_num
  have habs : ((ns.natAbs : Nat) : Int) = |ns| := Int.natCast_natAbs ns
  have hmod : (ns.natAbs : Int).tmod 1000000000 = |ns| % 1000000000 := by
    rw [habs]
    exact Int.tmod_eq_emod (abs_nonneg ns) (le_of_lt hpos)
  constructor
  · intro h
    have hd : ns.tdiv 1000000000 = ns / 1000000000 := Int.tdiv_eq_ediv h (le_of_lt hpos)
    have habs' : |ns| = ns := abs_of_nonneg h
    have hdm := Int.ediv_add_emod ns 1000000000
    have hm0 := Int.emod_nonneg ns (ne_of_gt hpos)
    have hq0 : 0 ≤ ns / 1000000000 := Int.ediv_nonneg h (le_of_lt hpos)
    simp only [timespec_to_ns, ns_to_timespec, NSEC_PER_SEC, hmod, hd, habs']
    refine ⟨by linarith, by positivity, by linarith⟩
  · intro h
    have hneg : 0 ≤ -ns := by omega
    have hd : ns.tdiv 1000000000 = -((-ns) / 1000000000) := by
      have h1 : (-ns).tdiv 1000000000 = (-ns) / 1000000000 :=
        Int.tdiv_eq_ediv hneg (le_of_lt hpos)
      have h2 : (-ns).tdiv 1000000000 = -(ns.tdiv 1000000000) := Int.neg_tdiv ns 1000000000
      rw [← h1, h2, neg_neg]
    simp only [ns_to_timespec, NSEC_PER_SEC, hmod, hd]
    exact ⟨trivial, trivial, Int.emod_nonneg _ (ne_of_gt hpos), Int.emod_lt_of_pos _ hpos⟩

/-- Witness of C14 at `ns = 1.5 s` and `ns = -1.5 s`. -/
theorem ns_to_timespec_roundtrip_and_sign_witness :
    (timespec_to_ns (ns_to_timespec 1500000000) = 1500000000 ∧
      0 ≤ (ns_to_timespec 1500000000).tv_sec * NSEC_PER_SEC ∧
      (ns_to_timespec 1500000000).tv_sec * NSEC_PER_SEC ≤ 1500000000) ∧
    ((ns_to_timespec (-1500000000)).tv_sec = -((-(-1500000000)) / 1000000000) ∧
      (ns_to_timespec (-1500000000)).tv_nsec = |(-1500000000 : Int)| % 1000000000 ∧
      0 ≤ (ns_to_timespec (-1500000000)).tv_nsec ∧
      (ns_to_timespec (-1500000000)).tv_nsec < 1000000000) :=
  ⟨(ns_to_timespec_roundtrip_and_sign 1500000000).1 (by decide),
   (ns_to_timespec_roundtrip_and_sign (-1500000000)).2 (by decide)⟩

/-! ### The port resolver -/

/-- A scan over ports none of which matches ends at the end of the loop with
every resolved name in the tried-port list. -/
theorem ptpmon_scan_ports_no_match (w : Ptp4l) (tgt : String)
    (hdup : ∀ j, w.strdup_ok j = true) :
    ∀ (n a : Nat) (tried : List String) (queried : List Nat),
      (∀ p, a ≤ p → p < a + n →
        (w.port_query p).1 = 0 ∧ (w.resolve p (w.port_query p).2.iface).1 = 0 ∧
        w.port_name p ≠ tgt) →
      ptpmon_scan_ports w tgt (List.range' a n) tried queried =
        { rc := -ENODEV, port_state := none, queried := queried ++ List.range' a n,
          printed := some (tried ++ (List.range' a n).map w.port_name),
          freed := some (tried ++ (List.range' a n).map w.port_name) } := by
  intro n
  induction n with
  | zero =>
    intro a tried queried _
    simp [ptpmon_scan_ports]
  | succ n ih =>
    intro a tried queried h
    obtain ⟨hq, hr, hne⟩ := h a (le_refl a) (by omega)
    have hne' : (w.resolve a (w.port_query a).2.iface).2 ≠ tgt := hne
    have hrest := ih (a + 1) (tried ++ [w.port_name a]) (queried ++ [a])
      (fun p hp1 hp2 => h p (by omega) (by omega))
    simp only [List.range'_succ, ptpmon_scan_ports, hq, hr, hne', hdup, ne_eq,
      not_true_eq_false, not_false_eq_true, if_true, if_false, Bool.not_true,
      Bool.false_eq_true]
    simp only [Ptp4l.port_name] at hrest
    rw [hrest]
    simp [Ptp4l.port_name]

/-- A scan whose first matching port is `a + d` stops there: it has queried
ports `a .. a + d` and tried the names of ports `a .. a + d - 1`. -/
theorem ptpmon_scan_ports_first_match (w : Ptp4l) (tgt : String)
    (hdup : ∀ j, w.strdup_ok j = true) :
    ∀ (d a n : Nat) (tried : List String) (queried : List Nat), d < n →
      (∀ p, a ≤ p → p < a + d →
        (w.port_query p).1 = 0 ∧ (w.resolve p (w.port_query p).2.iface).1 = 0 ∧
        w.port_name p ≠ tgt) →
      (w.port_query (a + d)).1 = 0 →
      (w.resolve (a + d) (w.port_query (a + d)).2.iface).1 = 0 →
      w.port_name (a + d) = tgt →
      ptpmon_scan_ports w tgt (List.range' a n) tried queried =
        { rc := 0, port_state := some (w.port_query (a + d)).2.port_state,
          queried := queried ++ List.range' a (d + 1), printed := none,
          freed := some (tried ++ (List.range' a d).map w.port_name) } := by
  intro d
  induction d with
  | zero =>
    intro a n tried queried hn _ hq hr hm
    obtain ⟨n, rfl⟩ : ∃ m, n = m + 1 := ⟨n - 1, by omega⟩
    have hm' : (w.resolve a (w.port_query a).2.iface).2 = tgt := hm
    simp only [Nat.add_zero] at hq hr
    simp [List.range'_succ, ptpmon_scan_ports, hq, hr, hm']
  | succ d ih =>
    intro a n tried queried hn h hq hr hm
    obtain ⟨n, rfl⟩ : ∃ m, n = m + 1 := ⟨n - 1, by omega⟩
    obtain ⟨hq0, hr0, hne⟩ := h a (le_refl a) (by omega)
    have hne' : (w.resolve a (w.port_query a).2.iface).2 ≠ tgt := hne
    have hidx : a + 1 + d = a + (d + 1) := by omega
    have hrest := ih (a + 1) n (tried ++ [w.port_name a]) (queried ++ [a]) (by omega)
      (fun p hp1 hp2 => h p (by omega) (by omega))
      (by rw [hidx]; exact hq) (by rw [hidx]; exact hr) (by rw [hidx]; exact hm)
    simp only [List.range'_succ a (d + 1), List.range'_succ a n, List.range'_succ a d,
      ptpmon_scan_ports, hq0, hr0, hne', hdup, ne_eq,
      not_true_eq_false, not_false_eq_true, if_true, if_false, Bool.not_true,
      Bool.false_eq_true]
    simp only [Ptp4l.port_name] at hrest
    rw [hrest, hidx]
    simp [Ptp4l.port_name]

/-- The result of the resolver when every query, name resolution and
allocation succeeds and `k` is the lowest-numbered port whose resolved name
is the resolved target. -/
theorem ptpmon_query_port_state_by_name_first_match (w : Ptp4l) (iface : String)
    (hok : w.all_succeed iface) (hmem : w.allocs_succeed) (k : Nat)
    (hk1 : 1 ≤ k) (hkN : k ≤ w.num_ports)
    (hmatch : w.port_name k = (w.resolve 0 iface).2)
    (hfirst : ∀ p, 1 ≤ p → p < k → w.port_name p ≠ (w.resolve 0 iface).2) :
    ptpmon_query_port_state_by_name w iface =
      { rc := 0, port_state := some (w.port_query k).2.port_state,
        queried := List.range' 1 k, printed := none,
        freed := some ((List.range' 1 (k - 1)).map w.port_name) } := by
  obtain ⟨h0, hds, hports⟩ := hok
  obtain ⟨hcalloc, hdup⟩ := hmem
  have hk : 1 + (k - 1) = k := by omega
  have hscan := ptpmon_scan_ports_first_match w (w.resolve 0 iface).2 hdup (k - 1) 1
    w.num_ports [] [] (by omega)
    (fun p hp1 hp2 => ⟨(hports p hp1 (by omega)).1, (hports p hp1 (by omega)).2,
      hfirst p hp1 (by omega)⟩)
    (by rw [hk]; exact (hports k hk1 hkN).1)
    (by rw [hk]; exact (hports k hk1 hkN).2)
    (by rw [hk]; exact hmatch)
  simp only [ptpmon_query_port_state_by_name, h0, hds, hcalloc, ne_eq, not_true_eq_false,
    if_false, Bool.not_true, Bool.false_eq_true]
  rw [hscan, hk]
  have hk' : k - 1 + 1 = k := by omega
  simp [hk']

/-- Every query and name resolution of `three_ports` succeeds. -/
theorem three_ports_all_succeed (iface : String) : three_ports.all_succeed iface := by
  refine ⟨rfl, rfl, ?_⟩
  intro p _ _
  simp only [three_ports]
  split_ifs <;> simp

/-- Every query and name resolution of `three_ports_no_memory` succeeds. -/
theorem three_ports_no_memory_all_succeed (iface : String) :
    three_ports_no_memory.all_succeed iface := by
  refine ⟨rfl, rfl, ?_⟩
  intro p _ _
  simp only [three_ports_no_memory, three_ports]
  split_ifs <;> simp

/-- C11 as stated fails: every query and name resolution of
`three_ports_no_memory` succeeds and port 2 resolves to the target `eth2`, but
the `strdup` of the name of port 1 fails, and the function returns `-ENOMEM`
with `*port_state` unwritten. -/
theorem resolver_match_needs_memory :
    three_ports_no_memory.all_succeed "eth2" ∧
    (∃ p, 1 ≤ p ∧ p ≤ three_ports_no_memory.num_ports ∧
      three_ports_no_memory.port_name p = (three_ports_no_memory.resolve 0 "eth2").2) ∧
    (ptpmon_query_port_state_by_name three_ports_no_memory "eth2").rc ≠ 0 ∧
    (ptpmon_query_port_state_by_name three_ports_no_memory "eth2").rc = -ENOMEM ∧
    (ptpmon_query_port_state_by_name three_ports_no_memory "eth2").port_state = none := by
  exact ⟨three_ports_no_memory_all_succeed _, ⟨2, by decide, by decide, by decide⟩,
    by decide, by decide, by decide⟩

/-- C11, amended: when all queries, name resolutions and allocations succeed
and some port in `1 .. N` has a resolved name equal to the resolved target,
the function returns `0`, stores the state of the lowest-numbered such port
`k` in `*port_state`, and has queried exactly the ports `1 .. k`. -/
theorem resolver_first_match_wins (w : Ptp4l) (iface : String)
    (hok : w.all_succeed iface) (hmem : w.allocs_succeed)
    (hex : ∃ p, 1 ≤ p ∧ p ≤ w.num_ports ∧ w.port_name p = (w.resolve 0 iface).2) :
    ∃ k, 1 ≤ k ∧ k ≤ w.num_ports ∧ w.port_name k = (w.resolve 0 iface).2 ∧
      (∀ p, 1 ≤ p → p < k → w.port_name p ≠ (w.resolve 0 iface).2) ∧
      (ptpmon_query_port_state_by_name w iface).rc = 0 ∧
      (ptpmon_query_port_state_by_name w iface).port_state =
        some (w.port_query k).2.port_state ∧
      (ptpmon_query_port_state_by_name w iface).queried = List.range' 1 k := by
  classical
  obtain ⟨h1, hN, hm⟩ := Nat.find_spec hex
  have hmin : ∀ p, 1 ≤ p → p < Nat.find hex → w.port_name p ≠ (w.resolve 0 iface).2 := by
    intro p hp1 hp2 hp
    exact Nat.find_min hex hp2 ⟨hp1, by omega, hp⟩
  have hres := ptpmon_query_port_state_by_name_first_match w iface hok hmem (Nat.find hex)
    h1 hN hm hmin
  exact ⟨Nat.find hex, h1, hN, hm, hmin, by rw [hres], by rw [hres], by rw [hres]⟩

/-- Witness of C11: port 2 of `three_ports` is bound to the target `eth2`. -/
theorem resolver_first_match_wins_witness :
    ∃ k, 1 ≤ k ∧ k ≤ three_ports.num_ports ∧
      three_ports.port_name k = (three_ports.resolve 0 "eth2").2 ∧
      (∀ p, 1 ≤ p → p < k → three_ports.port_name p ≠ (three_ports.resolve 0 "eth2").2) ∧
      (ptpmon_query_port_state_by_name three_ports "eth2").rc = 0 ∧
      (ptpmon_query_port_state_by_name three_ports "eth2").port_state =
        some (three_ports.port_query k).2.port_state ∧
      (ptpmon_query_port_state_by_name three_ports "eth2").queried = List.range' 1 k :=
  resolver_first_match_wins three_ports "eth2"
    (three_ports_all_succeed _)
    ⟨rfl, fun _ => rfl⟩
    ⟨2, by decide, by decide, by decide⟩

/-- C12 as stated fails: every query and name resolution of
`three_ports_no_memory` succeeds and no port resolves to the target `eth9`,
but the `strdup` of the first name fails: the function returns `-ENOMEM`, not
`-ENODEV`, and the diagnostic is not printed. -/
theorem resolver_no_match_needs_memory :
    three_ports_no_memory.all_succeed "eth9" ∧
    (∀ p, 1 ≤ p → p ≤ three_ports_no_memory.num_ports →
      three_ports_no_memory.port_name p ≠ (three_ports_no_memory.resolve 0 "eth9").2) ∧
    (ptpmon_query_port_state_by_name three_ports_no_memory "eth9").rc ≠ -ENODEV ∧
    (ptpmon_query_port_state_by_name three_ports_no_memory "eth9").rc = -ENOMEM ∧
    (ptpmon_query_port_state_by_name three_ports_no_memory "eth9").printed = none := by
  refine ⟨three_ports_no_memory_all_succeed _, ?_, by decide, by decide, by decide⟩
  intro p hp1 hp2
  have hp3 : p ≤ 3 := hp2
  interval_cases p <;> decide

/-- C12, amended: when all queries, name resolutions and allocations succeed
and none of the `N` ports resolves to the target, the function returns
`-ENODEV`, does not write `*port_state`, and hands to the diagnostic a
tried-port list of exactly `N` entries, the resolved names of ports `1 .. N`
in port-number order. -/
theorem resolver_no_match_lists_all_ports (w : Ptp4l) (iface : String)
    (hok : w.all_succeed iface) (hmem : w.allocs_succeed)
    (hnone : ∀ p, 1 ≤ p → p ≤ w.num_ports → w.port_name p ≠ (w.resolve 0 iface).2) :
    (ptpmon_query_port_state_by_name w iface).rc = -ENODEV ∧
    (ptpmon_query_port_state_by_name w iface).port_state = none ∧
    (ptpmon_query_port_state_by_name w iface).printed =
      some ((List.range' 1 w.num_ports).map w.port_name) ∧
    ((List.range' 1 w.num_ports).map w.port_name).length = w.num_ports := by
  obtain ⟨h0, hds, hports⟩ := hok
  obtain ⟨hcalloc, hdup⟩ := hmem
  have hscan := ptpmon_scan_ports_no_match w (w.resolve 0 iface).2 hdup w.num_ports 1 [] []
    (fun p hp1 hp2 => ⟨(hports p hp1 (by omega)).1, (hports p hp1 (by omega)).2,
      hnone p hp1 (by omega)⟩)
  simp only [ptpmon_query_port_state_by_name, h0, hds, hcalloc, ne_eq, not_true_eq_false,
    if_false, Bool.not_true, Bool.false_eq_true]
  rw [hscan]
  simp

/-- Witness of C12: no port of `three_ports` is bound to `eth9`. -/
theorem resolver_no_match_lists_all_ports_witness :
    (ptpmon_query_port_state_by_name three_ports "eth9").rc = -ENODEV ∧
    (ptpmon_query_port_state_by_name three_ports "eth9").port_state = none ∧
    (ptpmon_query_port_state_by_name three_ports "eth9").printed =
      some ((List.range' 1 three_ports.num_ports).map three_ports.port_name) ∧
    ((List.range' 1 three_ports.num_ports).map three_ports.port_name).length =
      three_ports.num_ports :=
  resolver_no_match_lists_all_ports three_ports "eth9"
    (three_ports_all_succeed _)
    ⟨rfl, fun _ => rfl⟩
    (fun p _ hp2 => by
      have hp3 : p ≤ 3 := hp2
      interval_cases p <;> decide)

/-- C13 as stated fails: port 2 is the only port of `three_ports` bound to the
target `eth2`; the scan stops at port 2, so port 3 is never queried and the
tried-port list freed on success holds the name of port 1 only, not the names
of ports 1 and 3. -/
theorem resolver_tried_list_stops_at_match :
    three_ports.port_name 2 = (three_ports.resolve 0 "eth2").2 ∧
    three_ports.port_name 1 ≠ (three_ports.resolve 0 "eth2").2 ∧
    three_ports.port_name 3 ≠ (three_ports.resolve 0 "eth2").2 ∧
    (ptpmon_query_port_state_by_name three_ports "eth2").rc = 0 ∧
    (ptpmon_query_port_state_by_name three_ports "eth2").queried = [1, 2] ∧
    (ptpmon_query_port_state_by_name three_ports "eth2").freed =
      some [three_ports.port_name 1] ∧
    (ptpmon_query_port_state_by_name three_ports "eth2").freed ≠
      some [three_ports.port_name 1, three_ports.port_name 3] := by
  decide

/-- C13, amended: when all queries, name resolutions and allocations succeed
and exactly one port `k` of the `N` ports resolves to the target, the function
returns `0` and the tried-port list at the point of success, which is the
list it frees before returning, holds exactly the resolved names of the ports
numbered below `k`, in query order; only the ports `1 .. k` were queried and
the diagnostic is not printed. -/
theorem resolver_tried_list_on_success (w : Ptp4l) (iface : String)
    (hok : w.all_succeed iface) (hmem : w.allocs_succeed) (k : Nat)
    (hk1 : 1 ≤ k) (hkN : k ≤ w.num_ports)
    (hmatch : w.port_name k = (w.resolve 0 iface).2)
    (honly : ∀ p, 1 ≤ p → p ≤ w.num_ports → p ≠ k →
      w.port_name p ≠ (w.resolve 0 iface).2) :
    (ptpmon_query_port_state_by_name w iface).rc = 0 ∧
    (ptpmon_query_port_state_by_name w iface).freed =
      some ((List.range' 1 (k - 1)).map w.port_name) ∧
    (ptpmon_query_port_state_by_name w iface).queried = List.range' 1 k ∧
    (ptpmon_query_port_state_by_name w iface).printed = none := by
  have hres := ptpmon_query_port_state_by_name_first_match w iface hok hmem k hk1 hkN hmatch
    (fun p hp1 hp2 => honly p hp1 (by omega) (by omega))
  exact ⟨by rw [hres], by rw [hres], by rw [hres], by rw [hres]⟩

/-- Witness of C13: port 2 of `three_ports` is the only one bound to `eth2`. -/
theorem resolver_tried_list_on_success_witness :
    (ptpmon_query_port_state_by_name three_ports "eth2").rc = 0 ∧
    (ptpmon_query_port_state_by_name three_ports "eth2").freed =
      some ((List.range' 1 (2 - 1)).map three_ports.port_name) ∧
    (ptpmon_query_port_state_by_name three_ports "eth2").queried = List.range' 1 2 ∧
    (ptpmon_query_port_state_by_name three_ports "eth2").printed = none :=
  resolver_tried_list_on_success three_ports "eth2"
    (three_ports_all_succeed _)
    ⟨rfl, fun _ => rfl⟩ 2 (by decide) (by decide) (by decide)
    (fun p hp1 hp2 hp => by
      have hp3 : p ≤ 3 := hp2
      interval_cases p
      · decide
      · exact absurd rfl hp
      · decide)

/-- C15: a timestamping control block with `cmsg_len = 48` has a payload of
`48 - 16 = 32` bytes, less than three `struct timespec`, yet it passes the
check `cmsg_len < sizeof(*ts) * 3`: `sk_receive` returns the length `64`, not
a negative value, and copies `ts[0]` and `ts[2]` into the record. -/
theorem sk_receive_accepts_short_block :
    short_tstamp_cmsg.cmsg_level = SOL_SOCKET ∧
    short_tstamp_cmsg.cmsg_type = SCM_TIMESTAMPING ∧
    short_tstamp_cmsg.cmsg_len - CMSG_HDR_LEN < 3 * SIZEOF_TIMESPEC ∧
    short_tstamp_event.control = [short_tstamp_cmsg] ∧
    ¬ (sk_receive short_tstamp_event ⟨0, 0⟩ timestamp.zero MSG_ERRQUEUE).1 < 0 ∧
    sk_receive short_tstamp_event ⟨0, 0⟩ timestamp.zero MSG_ERRQUEUE =
      (64, ⟨7500000000, 1⟩,
        { timestamp.zero with sw := short_tstamp_cmsg.tss.ts0, hw := short_tstamp_cmsg.tss.ts2 }) := by
  decide

end Isochron
